import Mathlib

/-!
Verification development for the annual-code-report metrics engine.

The development shallowly embeds the two core source files:

* `src/lib/gitLocal.js` — the commit-log parser and the per-repository
  metrics builder (`analyzeLocalRepo` and its helpers);
* `src/lib/metrics.js` (provided as `src/unnamed/part_000`, first
  document) — the cross-repository aggregator (`buildSummary`).

JavaScript strings are modelled as `List Char`, JavaScript numbers as
`ℚ` (counts as `ℕ`, signed day/line deltas as `ℤ`), `null` as `none`,
and JavaScript's stable `Array.prototype.sort` as a stable insertion
sort.  Object maps built by key insertion are modelled as insertion
ordered association lists.  `Number(x.toFixed(k))` is modelled as exact
decimal rounding on `ℚ`.  Timestamps are interpreted in their recorded
UTC offset.
-/

/-! ## Generic string and list utilities -/

/-- Model of JavaScript `String.prototype.split(sep)` for a one-character
separator, on `List Char`: `"".split(s) = [""]`, separators at the ends
produce empty fragments. -/
def splitOnC (sep : Char) : List Char → List (List Char)
  | [] => [[]]
  | c :: rest =>
    match splitOnC sep rest with
    | [] => [[]]
    | s :: ss => if c = sep then [] :: s :: ss else (c :: s) :: ss

/-- Model of JavaScript `Array.prototype.join(sep)` for a one-character
separator. -/
def intercalateC (sep : Char) : List (List Char) → List Char
  | [] => []
  | [s] => s
  | s :: rest => s ++ sep :: intercalateC sep rest

/-- Whitespace characters relevant to `String.prototype.trim` on the
inputs handled here. -/
def isJsWs (c : Char) : Bool := c == ' ' || c == '\t' || c == '\n' || c == '\r'

/-- Decimal value of a digit string (the defined fragment of
`parseInt` used by the numstat parser, which only ever receives
digit-only tokens). -/
def natOfDigits (l : List Char) : Nat := l.foldl (fun a c => a * 10 + (c.toNat - 48)) 0

/-- Test that `pat` is a prefix of `l` (JavaScript `startsWith`). -/
def leadsWith : List Char → List Char → Bool
  | [], _ => true
  | _, [] => false
  | p :: ps, x :: xs => p == x && leadsWith ps xs

/-- Test that `pat` occurs as a contiguous run in `l` (JavaScript
`includes`). -/
def containsSeq (pat : List Char) : List Char → Bool
  | [] => pat.isEmpty
  | x :: rest => leadsWith pat (x :: rest) || containsSeq pat rest

/-- Insertion-ordered counter bump: `m[k] = (m[k] || 0) + n` on a
JavaScript object used as a counter map. -/
def bumpBy {κ : Type} [DecidableEq κ] : List (κ × Nat) → κ → Nat → List (κ × Nat)
  | [], k, n => [(k, n)]
  | (k', v) :: rest, k, n =>
    if k' = k then (k', v + n) :: rest else (k', v) :: bumpBy rest k n

/-- Insertion-ordered map write that resets a key to a fresh
`{insertions: 0, deletions: 0}` cell (`commitStats[hash] = {0,0}`). -/
def setStat : List (List Char × Nat × Nat) → List Char → List (List Char × Nat × Nat)
  | [], k => [(k, 0, 0)]
  | (k', v) :: rest, k =>
    if k' = k then (k', 0, 0) :: rest else (k', v) :: setStat rest k

/-- Insertion-ordered accumulation into a `{insertions, deletions}` cell
(`commitStats[hash].insertions += ins; … .deletions += del`). -/
def addStat : List (List Char × Nat × Nat) → List Char → Nat → Nat → List (List Char × Nat × Nat)
  | [], k, i, d => [(k, i, d)]
  | (k', v) :: rest, k, i, d =>
    if k' = k then (k', v.1 + i, v.2 + d) :: rest else (k', v) :: addStat rest k i d

/-- Insertion-ordered map from keys to lists, appending to the bucket of
an existing key (`byDay[day].push(t)`). -/
def assocAppend {κ α : Type} [DecidableEq κ] : List (κ × List α) → κ → α → List (κ × List α)
  | [], k, a => [(k, [a])]
  | (k', v) :: rest, k, a =>
    if k' = k then (k', v ++ [a]) :: rest else (k', v) :: assocAppend rest k a

/-- Lookup in an association list. -/
def assocGet {κ α : Type} [DecidableEq κ] : List (κ × α) → κ → Option α
  | [], _ => none
  | (k', v) :: rest, k => if k' = k then some v else assocGet rest k

/-- Stable descending insertion by a key: the new element is placed
before the first existing element whose key is not larger.  Folding
`insertDescBy` from the right over a list is extensionally the stable
descending sort performed by `arr.sort((a, b) => key(b) - key(a))`. -/
def insertDescBy {α β : Type} [LinearOrder β] (key : α → β) (x : α) : List α → List α
  | [] => [x]
  | y :: ys => if key y ≤ key x then x :: y :: ys else y :: insertDescBy key x ys

/-- Stable descending sort by a key (JavaScript
`arr.sort((a, b) => key(b) - key(a))`, which is a stable sort). -/
def sortDescBy {α β : Type} [LinearOrder β] (key : α → β) (l : List α) : List α :=
  l.foldr (insertDescBy key) []

/-- Stable ascending insertion by a key. -/
def insertAscBy {α β : Type} [LinearOrder β] (key : α → β) (x : α) : List α → List α
  | [] => [x]
  | y :: ys => if key x ≤ key y then x :: y :: ys else y :: insertAscBy key x ys

/-- Stable ascending sort by a key (JavaScript
`arr.sort((a, b) => key(a) - key(b))`). -/
def sortAscBy {α β : Type} [LinearOrder β] (key : α → β) (l : List α) : List α :=
  l.foldr (insertAscBy key) []

/-- First element of a list attaining the maximal key (used to state
that a stable descending sort breaks ties by original order). -/
def firstMaxBy {α β : Type} [LinearOrder β] (key : α → β) : List α → Option α
  | [] => none
  | x :: xs =>
    match firstMaxBy key xs with
    | none => some x
    | some m => if key x < key m then some m else some x

/-- Sum of a list of naturals written as the fold performed by
`arr.reduce((a, b) => a + b, 0)`. -/
def sumNat (l : List Nat) : Nat := l.foldl (fun a b => a + b) 0

/-- Pointwise addition of a histogram into an accumulator array
(`v.forEach((x, i) => acc[i] += x)`); entries of `acc` beyond the
length of `v` are kept. -/
def joinAdd : List Nat → List Nat → List Nat
  | acc, [] => acc
  | [], _ => []
  | a :: as', v :: vs => (a + v) :: joinAdd as' vs

/-- Add `n` at index `i` of a histogram array (`acc[i] += n`). -/
def bumpAtBy (l : List Nat) (i n : Nat) : List Nat := l.set i (l.getD i 0 + n)

/-- Model of `Number(q.toFixed(digits))`: exact decimal rounding of a
rational to `digits` fractional digits. -/
def jsToFixed (digits : Nat) (q : ℚ) : ℚ := ((round (q * 10 ^ digits) : ℤ) : ℚ) / 10 ^ digits

/-! ## Calendar dates and timestamps -/

/-- A calendar date, the value of `dayjs(t).format("YYYY-MM-DD")`. -/
structure CalDate where
  year : Nat
  month : Nat
  day : Nat
deriving DecidableEq

/-- A parsed ISO-8601 timestamp with its recorded UTC offset in
minutes (`git log --pretty=%aI` output). -/
structure DateTime where
  year : Nat
  month : Nat
  day : Nat
  hour : Nat
  minute : Nat
  second : Nat
  offMin : Int
deriving DecidableEq

/-- Days since 1970-01-01 of a proleptic-Gregorian civil date (the
standard civil-from-days inverse used by date libraries). -/
def daysFromCivil (y : Int) (m d : Nat) : Int :=
  let yAdj : Int := if m ≤ 2 then y - 1 else y
  let era : Int := yAdj.fdiv 400
  let yoe : Int := yAdj - era * 400
  let mp : Nat := if 2 < m then m - 3 else m + 9
  let doy : Int := (153 * (mp : Int) + 2).fdiv 5 + (d : Int) - 1
  let doe : Int := yoe * 365 + yoe.fdiv 4 - yoe.fdiv 100 + doy
  era * 146097 + doe - 719468

/-- Epoch day number of a calendar date. -/
def epochDay (d : CalDate) : Int := daysFromCivil d.year d.month d.day

/-- Signed day difference `dayjs(a).diff(dayjs(b), "day")` between two
pure calendar dates. -/
def diffDay (a b : CalDate) : Int := epochDay a - epochDay b

/-- Parse the fixed-layout ISO-8601 timestamp `YYYY-MM-DDTHH:MM:SS±hh:mm`
produced by `git log --pretty=%aI`.  Fields missing from shorter inputs
read as zero. -/
def parseISO (s : List Char) : DateTime :=
  let year := natOfDigits (s.take 4)
  let month := natOfDigits ((s.drop 5).take 2)
  let day := natOfDigits ((s.drop 8).take 2)
  let hour := natOfDigits ((s.drop 11).take 2)
  let minute := natOfDigits ((s.drop 14).take 2)
  let second := natOfDigits ((s.drop 17).take 2)
  let sign : Int := if (s.drop 19).headD 'Z' = '-' then -1 else 1
  let offH := natOfDigits ((s.drop 20).take 2)
  let offM := natOfDigits ((s.drop 23).take 2)
  ⟨year, month, day, hour, minute, second, sign * ((offH : Int) * 60 + offM)⟩

/-- Calendar date of a timestamp in its recorded offset. -/
def dateOfDT (dt : DateTime) : CalDate := ⟨dt.year, dt.month, dt.day⟩

/-- Epoch seconds of a timestamp (wall clock minus UTC offset), the
quantity compared by `new Date(a) - new Date(b)`. -/
def epochSec (dt : DateTime) : Int :=
  epochDay (dateOfDT dt) * 86400 + (dt.hour : Int) * 3600 + (dt.minute : Int) * 60
    + (dt.second : Int) - dt.offMin * 60

/-- Day of week of a timestamp, `dayjs(t).day()`: 0 = Sunday. -/
def dowOfDT (dt : DateTime) : Nat := ((epochDay (dateOfDT dt) + 4).emod 7).toNat

/-- Gregorian leap-year test. -/
def isLeap (y : Nat) : Bool := y % 4 == 0 && (y % 100 != 0 || y % 400 == 0)

/-- One-based ordinal of a date within its year. -/
def dayOfYearOf (dt : DateTime) : Nat :=
  (daysFromCivil dt.year dt.month dt.day - daysFromCivil dt.year 1 1).toNat + 1

/-- ISO weekday of an epoch day number: 1 = Monday … 7 = Sunday. -/
def isoWeekday (e : Int) : Nat := ((e + 3).emod 7).toNat + 1

/-- Number of ISO weeks in a year (52 or 53). -/
def weeksInISOYear (y : Nat) : Nat :=
  let wd := isoWeekday (daysFromCivil y 1 1)
  if wd = 4 ∨ (isLeap y ∧ wd = 3) then 53 else 52

/-- ISO week number of a timestamp, `dayjs(t).isoWeek()`. -/
def isoWeekOf (dt : DateTime) : Nat :=
  let e := epochDay (dateOfDT dt)
  let w : Int := ((dayOfYearOf dt : Int) - (isoWeekday e : Int) + 10).fdiv 7
  if w < 1 then weeksInISOYear (dt.year - 1)
  else if (weeksInISOYear dt.year : Int) < w then 1
  else w.toNat

/-! ## Commit-log parser (`analyzeLocalRepo`, lines 106–144) -/

/-- One parsed commit record: `{ hash, date, message }`. -/
structure Commit where
  hash : List Char
  date : List Char
  message : List Char
deriving DecidableEq

/-- The accumulating state of the line-by-line parse loop. -/
structure ParseState where
  commits : List Commit
  current : Option Commit
  commitStats : List (List Char × Nat × Nat)
  totalInsertions : Nat
  totalDeletions : Nat
  fileChangeCount : List (List Char × Nat)
  fileExtCount : List (List Char × Nat)
deriving DecidableEq

/-- Initial parse state. -/
def initState : ParseState := ⟨[], none, [], 0, 0, [], []⟩

/-- Header-line recogniser: split on the separator and, when at least
three fields result, take field 0 as hash, field 1 as date and the
join of all remaining fields as the message
(`parts.slice(2).join("|")`). -/
def parseHeaderLine (line : List Char) : Option Commit :=
  match splitOnC '|' line with
  | p0 :: p1 :: p2 :: rest => some ⟨p0, p1, intercalateC '|' (p2 :: rest)⟩
  | _ => none

/-- Numstat token: a nonempty run of digits or the binary-file dash. -/
def isCountTok (t : List Char) : Bool := t == ['-'] || (!t.isEmpty && t.all Char.isDigit)

/-- Numeric value of a numstat token (`"-"` counts as zero). -/
def tokVal (t : List Char) : Nat := if t = ['-'] then 0 else natOfDigits t

/-- Numstat-line recogniser, the match against
`/^(\d+|-)\t(\d+|-)\t(.+)$/`: the first two tab-separated tokens must
be counts or dashes and a nonempty path (which may itself contain
tabs) must follow. -/
def numstatMatch (line : List Char) : Option (Nat × Nat × List Char) :=
  match splitOnC '\t' line with
  | a :: b :: rest =>
    if rest ≠ [] ∧ isCountTok a ∧ isCountTok b ∧ intercalateC '\t' rest ≠ [] then
      some (tokVal a, tokVal b, intercalateC '\t' rest)
    else none
  | _ => none

/-- Final path component (`path.basename`, no trailing-separator
handling needed for numstat paths). -/
def baseNameOf (file : List Char) : List Char :=
  (file.reverse.takeWhile (fun c => c ≠ '/')).reverse

/-- File extension (`path.extname`): the suffix from the last dot of the
base name, empty when the only dot is leading or there is none. -/
def extNameOf (file : List Char) : List Char :=
  let b := baseNameOf file
  let afterDot := (b.reverse.takeWhile (fun c => c ≠ '.')).length
  if afterDot < b.length then
    if b.length - afterDot - 1 = 0 then [] else b.drop (b.length - afterDot - 1)
  else []

/-- Extension key used by the file-type counter: the extension, or the
base name when the extension is empty (`ext || path.basename(file)`). -/
def extKeyOf (file : List Char) : List Char :=
  if extNameOf file = [] then baseNameOf file else extNameOf file

/-- One step of the parse loop, processing a single line: lines
containing`|` are header candidates, other lines with content are
numstat candidates charged to the current commit, everything else is
skipped. -/
def stepLine (st : ParseState) (line : List Char) : ParseState :=
  if '|' ∈ line then
    match parseHeaderLine line with
    | some c =>
      { st with commits := st.commits ++ [c], current := some c,
                commitStats := setStat st.commitStats c.hash }
    | none => st
  else
    match st.current with
    | some cur =>
      if line.all isJsWs then st
      else
        match numstatMatch line with
        | some (ins, del, file) =>
          { st with totalInsertions := st.totalInsertions + ins,
                    totalDeletions := st.totalDeletions + del,
                    commitStats := addStat st.commitStats cur.hash ins del,
                    fileChangeCount := bumpBy st.fileChangeCount file 1,
                    fileExtCount := bumpBy st.fileExtCount (extKeyOf file) 1 }
        | none => st
    | none => st

/-- Whole-log parse: split the raw log on newlines and fold the line
step over it. -/
def parseLog (logRaw : List Char) : ParseState :=
  (splitOnC '\n' logRaw).foldl stepLine initState

/-! ## Per-repository metrics builder (`analyzeLocalRepo`) -/

/-- The emoji character classes of `emojiRegex` in `gitLocal.js`. -/
def isEmojiChar (c : Char) : Bool :=
  decide ((0x1F300 ≤ c.toNat ∧ c.toNat ≤ 0x1F9FF) ∨ (0x2600 ≤ c.toNat ∧ c.toNat ≤ 0x26FF) ∨
    (0x2700 ≤ c.toNat ∧ c.toNat ≤ 0x27BF) ∨ (0x1F600 ≤ c.toNat ∧ c.toNat ≤ 0x1F64F) ∨
    (0x1F680 ≤ c.toNat ∧ c.toNat ≤ 0x1F6FF))

/-- Characters retained by the keyword cleaner: `\w` or the CJK block
`一-龥`. -/
def isWordOrCJK (c : Char) : Bool :=
  decide (c = '_' ∨ ('0' ≤ c ∧ c ≤ '9') ∨ ('a' ≤ c ∧ c ≤ 'z') ∨ ('A' ≤ c ∧ c ≤ 'Z') ∨
    (0x4E00 ≤ c.toNat ∧ c.toNat ≤ 0x9FA5))

/-- Keyword extraction: blank out emoji and non-word characters, split
on whitespace, keep tokens of length at least 2.  (The length filter
also removes the empty fragments that distinguish `split(/\s+/)` from
fragment grouping.) -/
def extractKeywords (text : List Char) : List (List Char) :=
  let cleaned := text.map (fun c => if isEmojiChar c then ' ' else if isWordOrCJK c then c else ' ')
  (splitOnC ' ' cleaned).filter (fun w => 2 ≤ w.length)

/-- The conventional-commit types of `commitTypeRegex`, lowercased. -/
def commitTypes : List (List Char) :=
  ["feat".data, "fix".data, "docs".data, "style".data, "refactor".data, "perf".data,
   "test".data, "chore".data, "build".data, "ci".data, "revert".data]

/-- Scan for a close parenthesis immediately followed by a colon
anywhere in the list. -/
def hasCloseColon : List Char → Bool
  | ')' :: ':' :: _ => true
  | _ :: rest => hasCloseColon rest
  | [] => false

/-- After the type token the regex requires either an immediate colon
or a parenthesized nonempty scope followed by a colon
(`(\(.+\))?:`). -/
def scopeThenColon : List Char → Bool
  | ':' :: _ => true
  | '(' :: _ :: xs => hasCloseColon ('(' :: xs).tail
  | _ => false

/-- Match of the case-insensitive `commitTypeRegex` against a message,
returning the lowercased type of group 1 on success. -/
def matchCommitType (message : List Char) : Option (List Char) :=
  let low := message.map Char.toLower
  commitTypes.find? (fun t => leadsWith t low && scopeThenColon (low.drop t.length))

/-- Timestamp of a commit record (`dayjs(c.date)`). -/
def dtOf (c : Commit) : DateTime := parseISO c.date

/-- Hour bucket of a commit (`t.hour()`). -/
def hourOf (c : Commit) : Nat := (dtOf c).hour

/-- Calendar day of a commit (`t.format("YYYY-MM-DD")`). -/
def dayOf (c : Commit) : CalDate := dateOfDT (dtOf c)

/-- Day of week of a commit (`t.day()`, 0 = Sunday). -/
def dowOf (c : Commit) : Nat := dowOfDT (dtOf c)

/-- Epoch seconds of a commit (`new Date(c.date)` comparisons and
`dayjs` diffs). -/
def epochOf (c : Commit) : Int := epochSec (dtOf c)

/-- Night commits: `hour >= 22 || hour <= 6`. -/
def countNight (commits : List Commit) : Nat :=
  (commits.filter (fun c => decide (22 ≤ hourOf c ∨ hourOf c ≤ 6))).length

/-- Early-bird commits: `hour >= 6 && hour <= 8`. -/
def countEarlyBird (commits : List Commit) : Nat :=
  (commits.filter (fun c => decide (6 ≤ hourOf c ∧ hourOf c ≤ 8))).length

/-- Late-night commits: `hour >= 2 && hour <= 5`. -/
def countLateNight (commits : List Commit) : Nat :=
  (commits.filter (fun c => decide (2 ≤ hourOf c ∧ hourOf c ≤ 5))).length

/-- Weekend commits: day of week 0 or 6. -/
def countWeekend (commits : List Commit) : Nat :=
  (commits.filter (fun c => decide (dowOf c = 0 ∨ dowOf c = 6))).length

/-- Weekday commits: the `else` branch of the weekend test. -/
def countWeekday (commits : List Commit) : Nat :=
  (commits.filter (fun c => decide (¬(dowOf c = 0 ∨ dowOf c = 6)))).length

/-- The 24-bucket hour histogram (`hourDistribution[hour]++`). -/
def hourDistributionCalc (commits : List Commit) : List Nat :=
  commits.foldl (fun acc c => bumpAtBy acc (hourOf c) 1) (List.replicate 24 0)

/-- The 7-bucket day-of-week histogram (`weekDistribution[day]++`). -/
def weekDistributionCalc (commits : List Commit) : List Nat :=
  commits.foldl (fun acc c => bumpAtBy acc (dowOf c) 1) (List.replicate 7 0)

/-- Left-pad a decimal rendering with zeros to a fixed width. -/
def padNum (width n : Nat) : List Char :=
  let s := (Nat.repr n).data
  List.replicate (width - s.length) '0' ++ s

/-- Month key of a commit (`t.format("YYYY-MM")`). -/
def monthKeyOf (c : Commit) : List Char :=
  padNum 4 (dtOf c).year ++ '-' :: padNum 2 (dtOf c).month

/-- Week key of a commit (`t.isoWeek() + "-" + t.year()`). -/
def weekKeyOf (c : Commit) : List Char :=
  (Nat.repr (isoWeekOf (dtOf c))).data ++ '-' :: (Nat.repr (dtOf c).year).data

/-- Quarter of a commit (`Math.ceil((t.month() + 1) / 3)`). -/
def quarterOf (c : Commit) : Nat := ((dtOf c).month + 2) / 3

/-- The four quarter buckets `{Q1, Q2, Q3, Q4}`. -/
structure Quarters where
  q1 : Nat
  q2 : Nat
  q3 : Nat
  q4 : Nat
deriving DecidableEq

/-- Quarter histogram (`quarterlyCommits["Q" + quarter]++`; the bucket
set is fixed, out-of-range quarters from unparsable dates are
dropped). -/
def quarterlyCalc (commits : List Commit) : Quarters :=
  commits.foldl (fun q c =>
    match quarterOf c with
    | 1 => { q with q1 := q.q1 + 1 }
    | 2 => { q with q2 := q.q2 + 1 }
    | 3 => { q with q3 := q.q3 + 1 }
    | 4 => { q with q4 := q.q4 + 1 }
    | _ => q) ⟨0, 0, 0, 0⟩

/-- The fixed entry order of `Object.entries` on a quarter record. -/
def quarterEntries (q : Quarters) : List (List Char × Nat) :=
  [("Q1".data, q.q1), ("Q2".data, q.q2), ("Q3".data, q.q3), ("Q4".data, q.q4)]

/-- Longest gap between consecutive active days
(`calcLongestGap`): the day difference of each adjacent pair of the
sorted day list minus one, maximised against 0. -/
def calcLongestGap (sortedDays : List CalDate) : Int :=
  if sortedDays.length < 2 then 0
  else
    (sortedDays.zip sortedDays.tail).foldl
      (fun maxGap p =>
        let gap := diffDay p.2 p.1 - 1
        if maxGap < gap then gap else maxGap) 0

/-- Longest run of consecutive active days (`gitLocal.js` lines
197–205): a day extends the streak only when it is exactly one day
after the previous one; the maximum observed streak is returned. -/
def longestStreakCalc (days : List CalDate) : Nat :=
  (days.foldl (fun (st : Nat × Nat × Option CalDate) d =>
    let s : Nat :=
      match st.2.2 with
      | none => 1
      | some p => if diffDay d p = 1 then st.2.1 + 1 else 1
    (max st.1 s, s, some d)) (0, 0, none)).1

/-- Longest same-day work session result: `{ day, minutes, hours }`. -/
structure WorkSession where
  day : Option CalDate
  minutes : Int
  hours : ℚ
deriving DecidableEq

/-- Fallback timestamp for impossible empty-bucket reads. -/
def dtDefault : DateTime := ⟨1970, 1, 1, 0, 0, 0, 0⟩

/-- Longest same-day work session (`calcLongestWorkSession`): group
commits by calendar day, measure the minute span between the earliest
and latest commit of each day with at least two commits, keep the
first maximal day. -/
def calcLongestWorkSession (commits : List Commit) : WorkSession :=
  let byDay := commits.foldl (fun m c => assocAppend m (dayOf c) (dtOf c)) []
  let best := byDay.foldl (fun (acc : Int × Option CalDate) p =>
    if p.2.length < 2 then acc
    else
      let ts := sortAscBy epochSec p.2
      let span := (epochSec (ts.getLastD dtDefault) - epochSec (ts.headD dtDefault)).tdiv 60
      if acc.1 < span then (span, some p.1) else acc) (0, none)
  ⟨best.2, best.1, jsToFixed 2 ((best.1 : ℚ) / 60)⟩

/-- Repository-local badge computation (`gitLocal.js` lines 270–279),
in source order with the literal thresholds. -/
def mkBadges (earlyBird night weekendCommits totalCommits longestStreak : Nat)
    (longestGap : Int) (lateNight bigRefactorCount mergeCommits : Nat) : List (List Char) :=
  (if (1 : ℚ) / 5 < (earlyBird : ℚ) / (totalCommits : ℚ) then ["🌅 早起鸟".data] else []) ++
  (if (3 : ℚ) / 10 < (night : ℚ) / (totalCommits : ℚ) then ["🦉 夜猫子".data] else []) ++
  (if (3 : ℚ) / 10 < (weekendCommits : ℚ) / (totalCommits : ℚ) then ["💪 周末战士".data] else []) ++
  (if 7 ≤ longestStreak then ["🔥 稳定输出".data] else []) ++
  (if (14 : Int) ≤ longestGap then ["🏖️ 摸鱼王".data] else []) ++
  (if 10 < lateNight then ["🌙 深夜肝帝".data] else []) ++
  (if 3 ≤ bigRefactorCount then ["🔨 重构大师".data] else []) ++
  (if 20 < mergeCommits then ["🤝 协作达人".data] else [])

/-- A ranked `(key, count)` entry of a top-N list (the shape shared by
`{word,count}`, `{emoji,count}`, `{file,count}` and `{ext,count}`). -/
structure TopCount where
  key : List Char
  count : Nat
deriving DecidableEq

/-- Earliest/latest commit summary `{ date, message }`. -/
structure EdgeCommit where
  date : List Char
  message : List Char
deriving DecidableEq

/-- Shortest/longest message summary `{ message, length }`. -/
structure MsgLen where
  message : List Char
  length : Nat
deriving DecidableEq

/-- Weekend-versus-weekday block of a repository record. -/
structure WeekendSplit where
  weekend : Nat
  weekday : Nat
  weekendRate : ℚ
deriving DecidableEq

/-- Emotion index `{ exclamation, question }`. -/
structure Emotion where
  exclamation : Nat
  question : Nat
deriving DecidableEq

/-- Added/deleted file counts from the name-status pass. -/
structure FileChangesTally where
  added : Nat
  deleted : Nat
  net : Int
deriving DecidableEq

/-- One ranked collaborator.  `gitLocal.js` stores the display string
`name <email>` in `name` and produces no separate email field; the
aggregator reads `c.email`, so it is carried as an `Option`. -/
structure Collaborator where
  name : List Char
  email : Option (List Char)
  commits : Nat
deriving DecidableEq

/-- Most productive day `{ date, commits }`. -/
structure DayCount where
  date : CalDate
  commits : Nat
deriving DecidableEq

/-- Most productive week `{ week, commits }`. -/
structure WeekCount where
  week : List Char
  commits : Nat
deriving DecidableEq

/-- One month of the monthly trend.  `gitLocal.js` emits
`{ month, count }`; the aggregator additionally reads `m.lines || 0`,
so the lines component is carried as an `Option` that the analyzer
leaves empty. -/
structure MonthEntry where
  month : List Char
  count : Nat
  lines : Option Nat
deriving DecidableEq

/-- The fixed-shape per-repository statistics record returned by
`analyzeLocalRepo` (`gitLocal.js` lines 281–325), in source field
order.  The trailing fields `hourLines`, `weekLines`,
`quarterlyLines`, `branchesCreated` and `commitRatio` do not appear in
the `gitLocal.js` return object: the first two are required
unconditionally by the aggregator and are modelled from the spec, the
next two are read behind `|| 0` / truthiness guards and stay empty,
and `commitRatio` is the field injected during aggregation. -/
structure RepoStats where
  name : List Char
  commits : Nat
  activeDays : Nat
  longestStreak : Nat
  insertions : Nat
  deletions : Nat
  netLines : Int
  filesChanged : Nat
  hourDistribution : List Nat
  weekDistribution : List Nat
  nightOwlRate : ℚ
  earliestCommit : EdgeCommit
  latestCommit : EdgeCommit
  shortestCommit : MsgLen
  longestCommit : MsgLen
  topKeywords : List TopCount
  emojiStats : List TopCount
  topChangedFiles : List TopCount
  weekendVsWeekday : WeekendSplit
  mostProductiveDay : Option DayCount
  mostProductiveWeek : Option WeekCount
  avgCommitInterval : ℚ
  lateNightCount : Nat
  commitTypeDistribution : List (List Char × Nat)
  mergeCommits : Nat
  revertCommits : Nat
  hotfixCount : Nat
  hotfixRate : ℚ
  longestGap : Int
  emotionIndex : Emotion
  yearSpanDays : Int
  topFileTypes : List TopCount
  avgLinesPerCommit : ℚ
  bigRefactorCount : Nat
  branchCount : Nat
  earlyBirdCount : Nat
  badges : List (List Char)
  collaborators : List Collaborator
  monthlyTrend : List MonthEntry
  quarterlyComparison : Quarters
  mostProductiveQuarter : List Char × Nat
  longestWorkSession : WorkSession
  fileChanges : FileChangesTally
  hourLines : List Nat
  weekLines : List Nat
  quarterlyLines : Option Quarters
  branchesCreated : Option Nat
  commitRatio : Option ℚ

/-- Fallback commit for impossible empty-list reads. -/
def emptyCommit : Commit := ⟨[], [], []⟩

/-- Lines changed by one commit according to the accumulated numstat
cells. -/
def linesOfCommit (stats : List (List Char × Nat × Nat)) (c : Commit) : Nat :=
  match assocGet stats c.hash with
  | some p => p.1 + p.2
  | none => 0

/-- Modelled from the spec: the per-hour lines-changed histogram of a
repository ("each counted both by commit and, where specified, by
lines changed").  The producer of this field is absent from
`src/lib/gitLocal.js` although `buildSummary` reads it
unconditionally. -/
def hourLinesCalc (stats : List (List Char × Nat × Nat)) (commits : List Commit) : List Nat :=
  commits.foldl (fun acc c => bumpAtBy acc (hourOf c) (linesOfCommit stats c)) (List.replicate 24 0)

/-- Modelled from the spec: the per-weekday lines-changed histogram of
a repository; like `hourLinesCalc` its producer is absent from
`src/lib/gitLocal.js`. -/
def weekLinesCalc (stats : List (List Char × Nat × Nat)) (commits : List Commit) : List Nat :=
  commits.foldl (fun acc c => bumpAtBy acc (dowOf c) (linesOfCommit stats c)) (List.replicate 7 0)

/-- The collaborator tally built from the all-authors listing
(`name|email` lines): authors whose lowercased name or email contains
the lowercased target author are excluded, the rest are counted under
the display key `name <email>`. -/
def collaboratorsCalc (authorsRaw author : List Char) : List Collaborator :=
  let authorL := author.map Char.toLower
  let tally := ((splitOnC '\n' authorsRaw).filter (fun l => !l.isEmpty)).foldl
    (fun m line =>
      let parts := splitOnC '|' line
      let an := parts.headD []
      let ae := (parts.drop 1).headD []
      if !containsSeq authorL (an.map Char.toLower) &&
         !containsSeq authorL (ae.map Char.toLower) then
        bumpBy m (an ++ " <".data ++ ae ++ ">".data) 1
      else m) []
  ((sortDescBy (fun p => p.2) tally).take 10).map (fun p => Collaborator.mk p.1 none p.2)

/-- Insertion-ordered set of active days (`dateSet` as iterated by
`[...dateSet]`). -/
def datesCalc (commits : List Commit) : List CalDate :=
  commits.foldl (fun acc c => if dayOf c ∈ acc then acc else acc ++ [dayOf c]) []

/-- A counter map rendered as a descending top-10 list
(`Object.entries(m).sort((a, b) => b[1] - a[1]).slice(0, 10)`). -/
def topCounts (m : List (List Char × Nat)) : List TopCount :=
  ((sortDescBy (fun p => p.2) m).take 10).map (fun p => TopCount.mk p.1 p.2)

/-- Keyword frequency map over all commit messages. -/
def keywordCountCalc (commits : List Commit) : List (List Char × Nat) :=
  commits.foldl (fun m c => (extractKeywords c.message).foldl (fun m w => bumpBy m w 1) m) []

/-- Emoji frequency map over all commit messages. -/
def emojiCountCalc (commits : List Commit) : List (List Char × Nat) :=
  commits.foldl (fun m c => (c.message.filter isEmojiChar).foldl (fun m e => bumpBy m [e] 1) m) []

/-- Conventional-commit-type histogram. -/
def commitTypeCountCalc (commits : List Commit) : List (List Char × Nat) :=
  commits.foldl (fun m c =>
    match matchCommitType c.message with
    | some t => bumpBy m t 1
    | none => m) []

/-- Merge commits: lowercased message starts with `merge`. -/
def countMerge (commits : List Commit) : Nat :=
  (commits.filter (fun c => leadsWith "merge".data (c.message.map Char.toLower))).length

/-- Revert commits: lowercased message starts with `revert`. -/
def countRevert (commits : List Commit) : Nat :=
  (commits.filter (fun c => leadsWith "revert".data (c.message.map Char.toLower))).length

/-- Hotfix commits: lowercased message contains `hotfix` or `bugfix`. -/
def countHotfix (commits : List Commit) : Nat :=
  (commits.filter (fun c =>
    containsSeq "hotfix".data (c.message.map Char.toLower) ||
    containsSeq "bugfix".data (c.message.map Char.toLower))).length

/-- Total occurrences of one character over all messages. -/
def countCharInMessages (ch : Char) (commits : List Commit) : Nat :=
  commits.foldl (fun a c => a + (c.message.filter (fun x => x == ch)).length) 0

/-- Commits in chronological order
(`[...commits].sort((a, b) => new Date(a.date) - new Date(b.date))`). -/
def sortedByDateOf (commits : List Commit) : List Commit := sortAscBy epochOf commits

/-- Sum of the truncated hour differences of consecutive chronological
commits. -/
def totalIntervalOf (commits : List Commit) : Int :=
  let s := sortedByDateOf commits
  (s.zip s.tail).foldl (fun a p => a + (epochOf p.2 - epochOf p.1).tdiv 3600) 0

/-- Average commit interval in hours, 0 for fewer than two commits. -/
def avgCommitIntervalCalc (commits : List Commit) : ℚ :=
  if 1 < commits.length then
    jsToFixed 2 ((totalIntervalOf commits : ℚ) / ((commits.length : ℚ) - 1))
  else 0

/-- Span in whole days between the earliest and the latest commit. -/
def yearSpanDaysCalc (commits : List Commit) : Int :=
  let s := sortedByDateOf commits
  (epochOf (s.getLastD emptyCommit) - epochOf (s.headD emptyCommit)).tdiv 86400

/-- Daily commit counter keyed by calendar day. -/
def dailyCommitsCalc (commits : List Commit) : List (CalDate × Nat) :=
  commits.foldl (fun m c => bumpBy m (dayOf c) 1) []

/-- Weekly commit counter keyed by `isoWeek-year`. -/
def weeklyCommitsCalc (commits : List Commit) : List (List Char × Nat) :=
  commits.foldl (fun m c => bumpBy m (weekKeyOf c) 1) []

/-- Monthly commit counter keyed by `YYYY-MM`. -/
def monthlyCommitsCalc (commits : List Commit) : List (List Char × Nat) :=
  commits.foldl (fun m c => bumpBy m (monthKeyOf c) 1) []

/-- Most productive day: first maximal entry of the daily counter. -/
def mostProductiveDayCalc (commits : List Commit) : Option DayCount :=
  (sortDescBy (fun p => p.2) (dailyCommitsCalc commits)).head?.map (fun p => DayCount.mk p.1 p.2)

/-- Most productive week: first maximal entry of the weekly counter. -/
def mostProductiveWeekCalc (commits : List Commit) : Option WeekCount :=
  (sortDescBy (fun p => p.2) (weeklyCommitsCalc commits)).head?.map (fun p => WeekCount.mk p.1 p.2)

/-- Monthly trend: the monthly counter sorted by month key. -/
def monthlyTrendCalc (commits : List Commit) : List MonthEntry :=
  (sortAscBy (fun p => p.1) (monthlyCommitsCalc commits)).map (fun p => MonthEntry.mk p.1 p.2 none)

/-- Big-refactor count: numstat cells with more than 500 changed
lines. -/
def bigRefactorCalc (stats : List (List Char × Nat × Nat)) : Nat :=
  (stats.filter (fun p => decide (500 < p.2.1 + p.2.2))).length

/-- Name-status lines starting with the given status letter and a tab. -/
def countStatusLines (tag : List Char) (diffTreeRaw : List Char) : Nat :=
  ((splitOnC '\n' diffTreeRaw).filter (fun l => leadsWith tag l)).length

/-- The statistics record assembled from the parsed log
(`gitLocal.js` lines 158–325).  All field values are written exactly as
the return object computes them, through the helper definitions
above. -/
def mkRepoStats (name : List Char) (st : ParseState) (collaborators : List Collaborator)
    (filesAdded filesDeleted branchCount : Nat) : RepoStats :=
  let commits := st.commits
  let dates := datesCalc commits
  let days := sortAscBy epochDay dates
  let sortedByDate := sortedByDateOf commits
  let earliest := sortedByDate.headD emptyCommit
  let latest := sortedByDate.getLastD emptyCommit
  let sortedByLength := sortAscBy (fun c => c.message.length) commits
  let shortest := sortedByLength.headD emptyCommit
  let longest := sortedByLength.getLastD emptyCommit
  let quarterly := quarterlyCalc commits
  { name := name
    commits := commits.length
    activeDays := dates.length
    longestStreak := longestStreakCalc days
    insertions := st.totalInsertions
    deletions := st.totalDeletions
    netLines := (st.totalInsertions : Int) - (st.totalDeletions : Int)
    filesChanged := st.fileChangeCount.length
    hourDistribution := hourDistributionCalc commits
    weekDistribution := weekDistributionCalc commits
    nightOwlRate := jsToFixed 3 ((countNight commits : ℚ) / (commits.length : ℚ))
    earliestCommit := ⟨earliest.date, earliest.message⟩
    latestCommit := ⟨latest.date, latest.message⟩
    shortestCommit := ⟨shortest.message, shortest.message.length⟩
    longestCommit := ⟨longest.message, longest.message.length⟩
    topKeywords := topCounts (keywordCountCalc commits)
    emojiStats := topCounts (emojiCountCalc commits)
    topChangedFiles := topCounts st.fileChangeCount
    weekendVsWeekday := ⟨countWeekend commits, countWeekday commits,
      jsToFixed 3 ((countWeekend commits : ℚ) / (commits.length : ℚ))⟩
    mostProductiveDay := mostProductiveDayCalc commits
    mostProductiveWeek := mostProductiveWeekCalc commits
    avgCommitInterval := avgCommitIntervalCalc commits
    lateNightCount := countLateNight commits
    commitTypeDistribution := commitTypeCountCalc commits
    mergeCommits := countMerge commits
    revertCommits := countRevert commits
    hotfixCount := countHotfix commits
    hotfixRate := jsToFixed 3 ((countHotfix commits : ℚ) / (commits.length : ℚ))
    longestGap := calcLongestGap days
    emotionIndex := ⟨countCharInMessages '!' commits, countCharInMessages '?' commits⟩
    yearSpanDays := yearSpanDaysCalc commits
    topFileTypes := topCounts st.fileExtCount
    avgLinesPerCommit :=
      jsToFixed 2 (((st.totalInsertions + st.totalDeletions : Nat) : ℚ) / (commits.length : ℚ))
    bigRefactorCount := bigRefactorCalc st.commitStats
    branchCount := branchCount
    earlyBirdCount := countEarlyBird commits
    badges := mkBadges (countEarlyBird commits) (countNight commits) (countWeekend commits)
      commits.length (longestStreakCalc days) (calcLongestGap days) (countLateNight commits)
      (bigRefactorCalc st.commitStats) (countMerge commits)
    collaborators := collaborators
    monthlyTrend := monthlyTrendCalc commits
    quarterlyComparison := quarterly
    mostProductiveQuarter :=
      (sortDescBy (fun p => p.2) (quarterEntries quarterly)).headD ("Q1".data, 0)
    longestWorkSession := calcLongestWorkSession commits
    fileChanges := ⟨filesAdded, filesDeleted, (filesAdded : Int) - (filesDeleted : Int)⟩
    hourLines := hourLinesCalc st.commitStats commits
    weekLines := weekLinesCalc st.commitStats commits
    quarterlyLines := none
    branchesCreated := none
    commitRatio := none }

/-- The per-repository metrics builder, the pure core of
`analyzeLocalRepo`: the raw texts the JavaScript obtains from `git`
(the numstat log, the all-authors listing and the name-status listing)
and the branch count are inputs.  Returns `none` when the log is blank
or parses to no commits. -/
def analyzeLocalRepo (name author logRaw authorsRaw diffTreeRaw : List Char)
    (branchCount : Nat) : Option RepoStats :=
  if logRaw.all isJsWs then none
  else
    let st := parseLog logRaw
    if st.commits.isEmpty then none
    else
      some (mkRepoStats name st (collaboratorsCalc authorsRaw author)
        (countStatusLines "A\t".data diffTreeRaw) (countStatusLines "D\t".data diffTreeRaw)
        branchCount)

/-! ## Cross-repository aggregator (`buildSummary`, `metrics.js` first
document of `src/unnamed/part_000`) -/

/-- Total commits across repositories
(`repos.reduce((a, b) => a + b.commits, 0)`). -/
def totalCommitsOf (repos : List RepoStats) : Nat :=
  repos.foldl (fun a r => a + r.commits) 0

/-- Total insertions across repositories. -/
def totalInsertionsOf (repos : List RepoStats) : Nat :=
  repos.foldl (fun a r => a + r.insertions) 0

/-- Total deletions across repositories. -/
def totalDeletionsOf (repos : List RepoStats) : Nat :=
  repos.foldl (fun a r => a + r.deletions) 0

/-- Total changed files across repositories. -/
def totalFilesChangedOf (repos : List RepoStats) : Nat :=
  repos.foldl (fun a r => a + r.filesChanged) 0

/-- The per-repository `commitRatio` injection (`metrics.js` line 25,
the only mutation the aggregator performs on its inputs):
`r.commitRatio = Number((r.commits / totalCommits).toFixed(3))`. -/
def injectRatios (repos : List RepoStats) : List RepoStats :=
  repos.map (fun r =>
    { r with commitRatio := some (jsToFixed 3 ((r.commits : ℚ) / (totalCommitsOf repos : ℚ))) })

/-- Summed 24-bucket hour histogram. -/
def hourDistributionOf (repos : List RepoStats) : List Nat :=
  repos.foldl (fun acc r => joinAdd acc r.hourDistribution) (List.replicate 24 0)

/-- Summed 24-bucket hour lines histogram. -/
def hourLinesOf (repos : List RepoStats) : List Nat :=
  repos.foldl (fun acc r => joinAdd acc r.hourLines) (List.replicate 24 0)

/-- Summed 7-bucket day-of-week histogram. -/
def weekDistributionOf (repos : List RepoStats) : List Nat :=
  repos.foldl (fun acc r => joinAdd acc r.weekDistribution) (List.replicate 7 0)

/-- Summed 7-bucket day-of-week lines histogram. -/
def weekLinesOf (repos : List RepoStats) : List Nat :=
  repos.foldl (fun acc r => joinAdd acc r.weekLines) (List.replicate 7 0)

/-- Maximal per-repository streak (`Math.max(...streaks, 0)`). -/
def longestStreakAgg (repos : List RepoStats) : Nat :=
  repos.foldl (fun a r => max a r.longestStreak) 0

/-- Maximal per-repository gap (`Math.max(...gaps, 0)`). -/
def longestGapAgg (repos : List RepoStats) : Int :=
  repos.foldl (fun a r => max a r.longestGap) 0

/-- Summed merge commits. -/
def totalMergeCommitsOf (repos : List RepoStats) : Nat :=
  repos.foldl (fun a r => a + r.mergeCommits) 0

/-- Summed revert commits. -/
def totalRevertCommitsOf (repos : List RepoStats) : Nat :=
  repos.foldl (fun a r => a + r.revertCommits) 0

/-- Summed hotfix commits. -/
def totalHotfixCountOf (repos : List RepoStats) : Nat :=
  repos.foldl (fun a r => a + r.hotfixCount) 0

/-- Summed big-refactor commits. -/
def totalBigRefactorCountOf (repos : List RepoStats) : Nat :=
  repos.foldl (fun a r => a + r.bigRefactorCount) 0

/-- Summed branch counts. -/
def totalBranchCountOf (repos : List RepoStats) : Nat :=
  repos.foldl (fun a r => a + r.branchCount) 0

/-- Summed created branches (`b.branchesCreated || 0`). -/
def totalBranchesCreatedOf (repos : List RepoStats) : Nat :=
  repos.foldl (fun a r => a + r.branchesCreated.getD 0) 0

/-- Summed exclamation marks. -/
def totalExclamationOf (repos : List RepoStats) : Nat :=
  repos.foldl (fun a r => a + r.emotionIndex.exclamation) 0

/-- Summed question marks. -/
def totalQuestionOf (repos : List RepoStats) : Nat :=
  repos.foldl (fun a r => a + r.emotionIndex.question) 0

/-- Summed per-repository active-day counts (`metrics.js` line 89). -/
def totalActiveDaysOf (repos : List RepoStats) : Nat :=
  repos.foldl (fun a r => a + r.activeDays) 0

/-- The capped active-day estimate
(`Math.min(totalActiveDays, 365)`, `metrics.js` line 90). -/
def estimatedActiveDaysOf (repos : List RepoStats) : Nat :=
  min (totalActiveDaysOf repos) 365

/-- Night commits of the merged hour histogram:
`hd.slice(22).sum + hd.slice(0, 7).sum`. -/
def nightCommitsOf (repos : List RepoStats) : Nat :=
  sumNat ((hourDistributionOf repos).drop 22) + sumNat ((hourDistributionOf repos).take 7)

/-- Early-bird commits of the merged hour histogram: `hd.slice(6, 9)`. -/
def earlyBirdCommitsOf (repos : List RepoStats) : Nat :=
  sumNat (((hourDistributionOf repos).drop 6).take 3)

/-- Late-night commits of the merged hour histogram: `hd.slice(2, 6)`. -/
def lateNightCommitsOf (repos : List RepoStats) : Nat :=
  sumNat (((hourDistributionOf repos).drop 2).take 4)

/-- Weekend commits of the merged week histogram: buckets 0 and 6. -/
def weekendCommitsOf (repos : List RepoStats) : Nat :=
  (weekDistributionOf repos).getD 0 0 + (weekDistributionOf repos).getD 6 0

/-- Weekday commits: `totalCommits - weekendCommits` (a JavaScript
subtraction, so carried on `ℤ`). -/
def weekdayCommitsOf (repos : List RepoStats) : Int :=
  (totalCommitsOf repos : Int) - (weekendCommitsOf repos : Int)

/-- Global average lines per commit
(`(totalInsertions + totalDeletions) / totalCommits`, 2 decimals). -/
def avgLinesPerCommitOf (repos : List RepoStats) : ℚ :=
  jsToFixed 2 (((totalInsertionsOf repos + totalDeletionsOf repos : Nat) : ℚ) /
    (totalCommitsOf repos : ℚ))

/-- Global average commit interval, weighted by per-repository commit
counts (`metrics.js` line 184). -/
def avgCommitIntervalOf (repos : List RepoStats) : ℚ :=
  jsToFixed 2 ((repos.foldl (fun a r => a + r.avgCommitInterval * (r.commits : ℚ)) 0) /
    (totalCommitsOf repos : ℚ))

/-- The merge-time stop-word set applied to keywords. -/
def stopWords : List (List Char) :=
  ["Merge".data, "branch".data, "into".data, "master".data, "release".data, "publish".data,
   "patch".data, "feature".data, "from".data, "skip".data, "ci".data, "auto".data, "merge".data]

/-- Merged keyword counter: every repository's top list folded in
order, stop words skipped. -/
def mergedKeywordMap (repos : List RepoStats) : List (List Char × Nat) :=
  repos.foldl (fun m r => r.topKeywords.foldl (fun m k =>
    if stopWords.contains k.key then m else bumpBy m k.key k.count) m) []

/-- Global top-20 keywords. -/
def topKeywordsOf (repos : List RepoStats) : List TopCount :=
  ((sortDescBy (fun p => p.2) (mergedKeywordMap repos)).take 20).map
    (fun p => TopCount.mk p.1 p.2)

/-- Merged emoji counter. -/
def mergedEmojiMap (repos : List RepoStats) : List (List Char × Nat) :=
  repos.foldl (fun m r => r.emojiStats.foldl (fun m e => bumpBy m e.key e.count) m) []

/-- Global top-10 emoji. -/
def emojiStatsOf (repos : List RepoStats) : List TopCount :=
  ((sortDescBy (fun p => p.2) (mergedEmojiMap repos)).take 10).map (fun p => TopCount.mk p.1 p.2)

/-- The merge-time anomalous-extension filter
(`!f.ext.includes("}") && !f.ext.includes("\"")`). -/
def extKeep (e : List Char) : Bool := !e.contains '\x7d' && !e.contains '\x22'

/-- Merged file-type counter, anomalous extensions dropped. -/
def mergedFileTypeMap (repos : List RepoStats) : List (List Char × Nat) :=
  repos.foldl (fun m r => r.topFileTypes.foldl (fun m f =>
    if extKeep f.key then bumpBy m f.key f.count else m) m) []

/-- Global top-10 file types. -/
def topFileTypesOf (repos : List RepoStats) : List TopCount :=
  ((sortDescBy (fun p => p.2) (mergedFileTypeMap repos)).take 10).map
    (fun p => TopCount.mk p.1 p.2)

/-- Merged changed-file counter. -/
def mergedFileMap (repos : List RepoStats) : List (List Char × Nat) :=
  repos.foldl (fun m r => r.topChangedFiles.foldl (fun m f => bumpBy m f.key f.count) m) []

/-- Global top-10 changed files. -/
def topChangedFilesOf (repos : List RepoStats) : List TopCount :=
  ((sortDescBy (fun p => p.2) (mergedFileMap repos)).take 10).map (fun p => TopCount.mk p.1 p.2)

/-- A globally ranked collaborator (`{ name, email, commits }` after
splitting the merge key back apart). -/
structure GlobalCollab where
  name : List Char
  email : Option (List Char)
  commits : Nat
deriving DecidableEq

/-- Merged collaborator counter keyed by `name + "|" + email` (an
absent email renders as the string `undefined`, exactly as the
template literal does). -/
def mergedCollabMap (repos : List RepoStats) : List (List Char × Nat) :=
  repos.foldl (fun m r => r.collaborators.foldl (fun m c =>
    bumpBy m (c.name ++ '|' :: c.email.getD "undefined".data) c.commits) m) []

/-- Global top-10 collaborators. -/
def topCollaboratorsOf (repos : List RepoStats) : List GlobalCollab :=
  ((sortDescBy (fun p => p.2) (mergedCollabMap repos)).take 10).map (fun p =>
    let parts := splitOnC '|' p.1
    GlobalCollab.mk (parts.headD []) (parts.drop 1).head? p.2)

/-- Merged conventional-commit-type histogram. -/
def commitTypeMapOf (repos : List RepoStats) : List (List Char × Nat) :=
  repos.foldl (fun m r => r.commitTypeDistribution.foldl
    (fun m p => bumpBy m p.1 p.2) m) []

/-- Pointwise sum of two quarter records. -/
def quartersAdd (a b : Quarters) : Quarters :=
  ⟨a.q1 + b.q1, a.q2 + b.q2, a.q3 + b.q3, a.q4 + b.q4⟩

/-- Merged quarterly commit histogram. -/
def quarterlyComparisonOf (repos : List RepoStats) : Quarters :=
  repos.foldl (fun q r => quartersAdd q r.quarterlyComparison) ⟨0, 0, 0, 0⟩

/-- Merged quarterly lines histogram (`if (r.quarterlyLines)` guard). -/
def quarterlyLinesOf (repos : List RepoStats) : Quarters :=
  repos.foldl (fun q r =>
    match r.quarterlyLines with
    | some ql => quartersAdd q ql
    | none => q) ⟨0, 0, 0, 0⟩

/-- Global most productive quarter. -/
def mostProductiveQuarterOf (repos : List RepoStats) : List Char × Nat :=
  (sortDescBy (fun p => p.2) (quarterEntries (quarterlyComparisonOf repos))).headD ("Q1".data, 0)

/-- Merged monthly commit counter. -/
def monthlyMapOf (repos : List RepoStats) : List (List Char × Nat) :=
  repos.foldl (fun m r => r.monthlyTrend.foldl (fun m e => bumpBy m e.month e.count) m) []

/-- Merged monthly lines counter (`m.lines || 0`). -/
def monthlyLinesMapOf (repos : List RepoStats) : List (List Char × Nat) :=
  repos.foldl (fun m r => r.monthlyTrend.foldl (fun m e => bumpBy m e.month (e.lines.getD 0)) m) []

/-- One month of the global monthly trend. -/
structure MonthSum where
  month : List Char
  count : Nat
  lines : Nat
deriving DecidableEq

/-- Global monthly trend sorted by month key. -/
def monthlyTrendOf (repos : List RepoStats) : List MonthSum :=
  (sortAscBy (fun p => p.1) (monthlyMapOf repos)).map (fun p =>
    MonthSum.mk p.1 p.2 ((assocGet (monthlyLinesMapOf repos) p.1).getD 0))

/-- Merged daily counter over the per-repository most productive
days. -/
def dailyAggMapOf (repos : List RepoStats) : List (CalDate × Nat) :=
  repos.foldl (fun m r =>
    match r.mostProductiveDay with
    | some d => bumpBy m d.date d.commits
    | none => m) []

/-- Global most productive day. -/
def mostProductiveDayOf (repos : List RepoStats) : Option DayCount :=
  (sortDescBy (fun p => p.2) (dailyAggMapOf repos)).head?.map (fun p => DayCount.mk p.1 p.2)

/-- Merged weekly counter over the per-repository most productive
weeks. -/
def weeklyAggMapOf (repos : List RepoStats) : List (List Char × Nat) :=
  repos.foldl (fun m r =>
    match r.mostProductiveWeek with
    | some w => bumpBy m w.week w.commits
    | none => m) []

/-- Global most productive week. -/
def mostProductiveWeekOf (repos : List RepoStats) : Option WeekCount :=
  (sortDescBy (fun p => p.2) (weeklyAggMapOf repos)).head?.map (fun p => WeekCount.mk p.1 p.2)

/-- A boundary commit with its source repository attached. -/
structure GlobalEdge where
  date : List Char
  message : List Char
  project : List Char
deriving DecidableEq

/-- Global earliest commit. -/
def earliestCommitOf (repos : List RepoStats) : Option GlobalEdge :=
  (sortAscBy (fun g => epochSec (parseISO g.date))
    (repos.map (fun r => GlobalEdge.mk r.earliestCommit.date r.earliestCommit.message r.name))).head?

/-- Global latest commit. -/
def latestCommitOf (repos : List RepoStats) : Option GlobalEdge :=
  (sortDescBy (fun g => epochSec (parseISO g.date))
    (repos.map (fun r => GlobalEdge.mk r.latestCommit.date r.latestCommit.message r.name))).head?

/-- Global span in days between the earliest and latest commits. -/
def yearSpanDaysOf (repos : List RepoStats) : Int :=
  match earliestCommitOf repos, latestCommitOf repos with
  | some e, some l => (epochSec (parseISO l.date) - epochSec (parseISO e.date)).tdiv 86400
  | _, _ => 0

/-- A message-length extreme with its source repository attached. -/
structure GlobalMsg where
  message : List Char
  length : Nat
  project : List Char
deriving DecidableEq

/-- Global shortest commit message. -/
def shortestCommitOf (repos : List RepoStats) : Option GlobalMsg :=
  (sortAscBy (fun g => g.length)
    (repos.map (fun r =>
      GlobalMsg.mk r.shortestCommit.message r.shortestCommit.length r.name))).head?

/-- Global longest commit message. -/
def longestCommitOf (repos : List RepoStats) : Option GlobalMsg :=
  (sortDescBy (fun g => g.length)
    (repos.map (fun r =>
      GlobalMsg.mk r.longestCommit.message r.longestCommit.length r.name))).head?

/-- A work session with its source repository attached. -/
structure GlobalWS where
  day : Option CalDate
  minutes : Int
  hours : ℚ
  project : List Char
deriving DecidableEq

/-- Global longest work session: positive-length sessions ranked by
minutes. -/
def longestWorkSessionOf (repos : List RepoStats) : Option GlobalWS :=
  ((repos.map (fun r => GlobalWS.mk r.longestWorkSession.day r.longestWorkSession.minutes
      r.longestWorkSession.hours r.name)).filter
    (fun s => decide (0 < s.minutes)) |> sortDescBy (fun s => s.minutes)).head?

/-- One entry of the top-5 project ranking. -/
structure ProjBrief where
  name : List Char
  commits : Nat
  insertions : Nat
  deletions : Nat
  badges : List (List Char)
deriving DecidableEq

/-- Top-5 projects by commits. -/
def topProjectsOf (repos : List RepoStats) : List ProjBrief :=
  ((sortDescBy (fun r => r.commits) repos).take 5).map (fun r =>
    ProjBrief.mk r.name r.commits r.insertions r.deletions r.badges)

/-- The global badge list (`metrics.js` lines 191–202), in source
order. -/
def globalBadgesOf (repos : List RepoStats) : List (List Char) :=
  (if (1 : ℚ) / 10 < (earlyBirdCommitsOf repos : ℚ) / (totalCommitsOf repos : ℚ) then
    ["🌅 早起鸟".data] else []) ++
  (if (1 : ℚ) / 5 < (nightCommitsOf repos : ℚ) / (totalCommitsOf repos : ℚ) then
    ["🦉 夜猫子".data] else []) ++
  (if (3 : ℚ) / 20 < (weekendCommitsOf repos : ℚ) / (totalCommitsOf repos : ℚ) then
    ["💪 周末战士".data] else []) ++
  (if 7 ≤ longestStreakAgg repos then ["🔥 稳定输出".data] else []) ++
  (if (14 : Int) ≤ longestGapAgg repos then ["🏖️ 摸鱼王".data] else []) ++
  (if 10 < lateNightCommitsOf repos then ["🌙 深夜肝帝".data] else []) ++
  (if 10 ≤ totalBigRefactorCountOf repos then ["🔨 重构大师".data] else []) ++
  (if 50 < totalMergeCommitsOf repos then ["🤝 协作达人".data] else []) ++
  (if 10 ≤ repos.length then ["🚀 多项目达人".data] else []) ++
  (if 1000 ≤ totalCommitsOf repos then ["💎 千次提交".data] else []) ++
  (if 100000 ≤ totalInsertionsOf repos then ["📝 十万+行代码".data] else [])

/-- One annual-title candidate `{ score, title, desc }`. -/
structure TitleCand where
  score : ℚ
  title : List Char
  desc : List Char
deriving DecidableEq

/-- The chosen annual title `{ title, desc }`. -/
structure TitlePick where
  title : List Char
  desc : List Char
deriving DecidableEq

/-- The fixed annual-title candidate list (`metrics.js` lines
206–218), in declaration order with the literal scoring formulas. -/
def titleCandidatesOf (repos : List RepoStats) : List TitleCand :=
  [⟨if 1000 ≤ totalCommitsOf repos then 100 else (totalCommitsOf repos : ℚ) / 10,
    "💎 代码狂人".data, "提交次数惊人".data⟩,
   ⟨if 100000 ≤ totalInsertionsOf repos then 90 else (totalInsertionsOf repos : ℚ) / 1000,
    "📝 产出之王".data, "代码产出极高".data⟩,
   ⟨(nightCommitsOf repos : ℚ) / (totalCommitsOf repos : ℚ) * 100,
    "🦉 暗夜行者".data, "深夜是你的主场".data⟩,
   ⟨(earlyBirdCommitsOf repos : ℚ) / (totalCommitsOf repos : ℚ) * 100,
    "🌅 晨光先锋".data, "早起的鸟儿有代码写".data⟩,
   ⟨(weekendCommitsOf repos : ℚ) / (totalCommitsOf repos : ℚ) * 80,
    "💪 周末战神".data, "周末也在燃烧".data⟩,
   ⟨if 30 ≤ longestStreakAgg repos then 85 else (longestStreakAgg repos : ℚ) * 2,
    "🔥 持之以恒".data, "连续提交天数超长".data⟩,
   ⟨if 20 ≤ totalBigRefactorCountOf repos then 80 else (totalBigRefactorCountOf repos : ℚ) * 4,
    "🔨 重构之神".data, "大刀阔斧改代码".data⟩,
   ⟨if 15 ≤ repos.length then 75 else (repos.length : ℚ) * 5,
    "🚀 全栈游侠".data, "多项目同时推进".data⟩,
   ⟨if 100 ≤ totalMergeCommitsOf repos then 70 else (totalMergeCommitsOf repos : ℚ) * 7 / 10,
    "🤝 团队枢纽".data, "协作合并最频繁".data⟩,
   ⟨if (30 : Int) ≤ longestGapAgg repos then 60 else (longestGapAgg repos : ℚ) * 2,
    "🏖️ 佛系开发".data, "张弛有度，懂得休息".data⟩,
   ⟨(lateNightCommitsOf repos : ℚ) / (totalCommitsOf repos : ℚ) * 90,
    "🌙 深夜肝帝".data, "凌晨还在写代码".data⟩]

/-- The annual title: stable descending sort of the candidates by
score, first element (`titleCandidates.sort((a, b) => b.score -
a.score)[0]`). -/
def annualTitleOf (repos : List RepoStats) : TitlePick :=
  let w := (sortDescBy (fun c => c.score) (titleCandidatesOf repos)).headD ⟨0, [], []⟩
  ⟨w.title, w.desc⟩

/-- Weekend-versus-weekday block of the global summary (`weekday` is a
JavaScript subtraction, hence signed). -/
structure SumWeekend where
  weekend : Nat
  weekday : Int
  weekendRate : ℚ
deriving DecidableEq

/-- The global summary record returned by `buildSummary`
(`metrics.js` lines 269–361), in source field order. -/
structure Summary where
  projectCount : Nat
  projectCountTip : List Char
  totalCommits : Nat
  totalCommitsTip : List Char
  totalInsertions : Nat
  totalInsertionsTip : List Char
  totalDeletions : Nat
  netLines : Int
  netLinesTip : List Char
  totalFilesChanged : Nat
  activeDays : Nat
  activeDaysTip : List Char
  avgLinesPerCommit : ℚ
  avgCommitInterval : ℚ
  coffeeTip : List Char
  earliestCommit : Option GlobalEdge
  latestCommit : Option GlobalEdge
  yearSpanDays : Int
  hourDistribution : List Nat
  hourLines : List Nat
  weekDistribution : List Nat
  weekLines : List Nat
  monthlyTrend : List MonthSum
  quarterlyComparison : Quarters
  quarterlyLines : Quarters
  mostProductiveQuarter : List Char × Nat
  mostProductiveDay : Option DayCount
  mostProductiveWeek : Option WeekCount
  longestStreak : Nat
  longestStreakTip : List Char
  longestGap : Int
  longestGapTip : List Char
  longestWorkSession : Option GlobalWS
  longestWorkSessionTip : List Char
  weekendVsWeekday : SumWeekend
  weekendTip : List Char
  nightOwlRate : ℚ
  nightOwlTip : List Char
  earlyBirdCount : Nat
  earlyBirdTip : List Char
  lateNightCount : Nat
  shortestCommit : Option GlobalMsg
  longestCommit : Option GlobalMsg
  topKeywords : List TopCount
  emojiStats : List TopCount
  emotionIndex : Emotion
  commitTypeDistribution : List (List Char × Nat)
  topFileTypes : List TopCount
  topChangedFiles : List TopCount
  fileChanges : FileChangesTally
  topCollaborators : List GlobalCollab
  topCollaboratorsTip : List Char
  mergeCommits : Nat
  revertCommits : Nat
  hotfixCount : Nat
  hotfixRate : ℚ
  bigRefactorCount : Nat
  bigRefactorCountTip : List Char
  branchCount : Nat
  branchesCreated : Nat
  branchesCreatedTip : List Char
  topProjects : List ProjBrief
  allProjects : List (List Char)
  badges : List (List Char)
  annualTitle : TitlePick

/-- The cross-repository aggregator (`buildSummary`): `none` on an
empty collection, otherwise the assembled global summary.  The
`commitRatio` side effect the JavaScript performs on its inputs is
modelled separately by `injectRatios`; no summary field reads it. -/
def buildSummary (repos : List RepoStats) : Option Summary :=
  if repos.isEmpty then none
  else
    some {
      projectCount := repos.length
      projectCountTip :=
        if 15 ≤ repos.length then "🚀 多线程人类，同时驾驭多个项目".data
        else if 10 ≤ repos.length then "💪 项目达人，涉猎广泛".data
        else if 5 ≤ repos.length then "📦 稳扎稳打，多项目并行".data
        else "🎯 专注深耕".data
      totalCommits := totalCommitsOf repos
      totalCommitsTip :=
        if 1000 ≤ totalCommitsOf repos then "💎 千次提交，代码狂人".data
        else if 500 ≤ totalCommitsOf repos then "🔥 高产似母猪".data
        else if 200 ≤ totalCommitsOf repos then "⚡ 稳定输出中".data
        else "🌱 持续成长中".data
      totalInsertions := totalInsertionsOf repos
      totalInsertionsTip :=
        if 100000 ≤ totalInsertionsOf repos then
          "📚 相当于写了 ".data ++ (Nat.repr (totalInsertionsOf repos / 30000)).data
            ++ " 本小说".data
        else if 50000 ≤ totalInsertionsOf repos then "📝 产出惊人".data
        else if 10000 ≤ totalInsertionsOf repos then "✍️ 笔耕不辍".data
        else "📖 积少成多".data
      totalDeletions := totalDeletionsOf repos
      netLines := (totalInsertionsOf repos : Int) - (totalDeletionsOf repos : Int)
      netLinesTip :=
        if (50000 : Int) ≤ (totalInsertionsOf repos : Int) - (totalDeletionsOf repos : Int) then
          "📈 净增代码量可观".data
        else if (10000 : Int) ≤ (totalInsertionsOf repos : Int) - (totalDeletionsOf repos : Int)
          then "📊 稳步增长".data
        else "🔄 精简优化中".data
      totalFilesChanged := totalFilesChangedOf repos
      activeDays := estimatedActiveDaysOf repos
      activeDaysTip :=
        if 300 ≤ estimatedActiveDaysOf repos then "🔥 全年无休，肝帝本帝".data
        else if 200 ≤ estimatedActiveDaysOf repos then "💪 勤奋打工人".data
        else if 100 ≤ estimatedActiveDaysOf repos then "⏰ 稳定出勤".data
        else "🌴 劳逸结合".data
      avgLinesPerCommit := avgLinesPerCommitOf repos
      avgCommitInterval := avgCommitIntervalOf repos
      coffeeTip := "☕ 按每2次提交喝1杯咖啡算，你喝了 ".data
        ++ (Nat.repr (totalCommitsOf repos / 2)).data ++ " 杯".data
      earliestCommit := earliestCommitOf repos
      latestCommit := latestCommitOf repos
      yearSpanDays := yearSpanDaysOf repos
      hourDistribution := hourDistributionOf repos
      hourLines := hourLinesOf repos
      weekDistribution := weekDistributionOf repos
      weekLines := weekLinesOf repos
      monthlyTrend := monthlyTrendOf repos
      quarterlyComparison := quarterlyComparisonOf repos
      quarterlyLines := quarterlyLinesOf repos
      mostProductiveQuarter := mostProductiveQuarterOf repos
      mostProductiveDay := mostProductiveDayOf repos
      mostProductiveWeek := mostProductiveWeekOf repos
      longestStreak := longestStreakAgg repos
      longestStreakTip :=
        if 30 ≤ longestStreakAgg repos then "🔥 连续一个月，毅力惊人".data
        else if 14 ≤ longestStreakAgg repos then "💪 比坚持健身还久".data
        else if 7 ≤ longestStreakAgg repos then "⚡ 一周连击".data
        else "🎯 专注当下".data
      longestGap := longestGapAgg repos
      longestGapTip :=
        if (60 : Int) ≤ longestGapAgg repos then "🏖️ 超长假期，希望是在度假".data
        else if (30 : Int) ≤ longestGapAgg repos then "😴 摸鱼冠军".data
        else if (14 : Int) ≤ longestGapAgg repos then "🌴 适度休息".data
        else "🔥 几乎不休息".data
      longestWorkSession := longestWorkSessionOf repos
      longestWorkSessionTip :=
        match longestWorkSessionOf repos with
        | some s =>
          if (10 : ℚ) ≤ s.hours then
            "⏰ 相当于看了 ".data ++ (Int.repr (Int.floor (s.hours / 2))).data ++ " 部电影".data
          else if (6 : ℚ) ≤ s.hours then "💪 超长待机".data
          else "⚡ 高效工作".data
        | none => "⚡ 高效工作".data
      weekendVsWeekday := ⟨weekendCommitsOf repos, weekdayCommitsOf repos,
        jsToFixed 3 ((weekendCommitsOf repos : ℚ) / (totalCommitsOf repos : ℚ))⟩
      weekendTip :=
        if (1 : ℚ) / 5 < (weekendCommitsOf repos : ℚ) / (totalCommitsOf repos : ℚ) then
          "💪 周末战士，休息日也在战斗".data
        else if 20 ≤ weekendCommitsOf repos then "⚡ 偶尔周末加班".data
        else "🌴 周末好好休息".data
      nightOwlRate := jsToFixed 3 ((nightCommitsOf repos : ℚ) / (totalCommitsOf repos : ℚ))
      nightOwlTip :=
        if (3 : ℚ) / 10 < (nightCommitsOf repos : ℚ) / (totalCommitsOf repos : ℚ) then
          "🦉 夜猫子，深夜是你的主场".data
        else if (3 : ℚ) / 20 < (nightCommitsOf repos : ℚ) / (totalCommitsOf repos : ℚ) then
          "🌙 偶尔熬夜".data
        else "😴 作息规律".data
      earlyBirdCount := earlyBirdCommitsOf repos
      earlyBirdTip :=
        if (3 : ℚ) / 20 < (earlyBirdCommitsOf repos : ℚ) / (totalCommitsOf repos : ℚ) then
          "🌅 早起鸟，比太阳还勤快".data
        else if 10 ≤ earlyBirdCommitsOf repos then "☀️ 偶尔早起".data
        else "😴 不是早起型".data
      lateNightCount := lateNightCommitsOf repos
      shortestCommit := shortestCommitOf repos
      longestCommit := longestCommitOf repos
      topKeywords := topKeywordsOf repos
      emojiStats := emojiStatsOf repos
      emotionIndex := ⟨totalExclamationOf repos, totalQuestionOf repos⟩
      commitTypeDistribution := commitTypeMapOf repos
      topFileTypes := topFileTypesOf repos
      topChangedFiles := topChangedFilesOf repos
      fileChanges := ⟨repos.foldl (fun a r => a + r.fileChanges.added) 0,
        repos.foldl (fun a r => a + r.fileChanges.deleted) 0,
        (repos.foldl (fun a r => a + r.fileChanges.added) 0 : Int) -
          (repos.foldl (fun a r => a + r.fileChanges.deleted) 0 : Int)⟩
      topCollaborators := topCollaboratorsOf repos
      topCollaboratorsTip :=
        if 10 ≤ (topCollaboratorsOf repos).length then "🤝 社交达人，协作广泛".data
        else if 5 ≤ (topCollaboratorsOf repos).length then "👥 团队核心".data
        else "🎯 独立作战".data
      mergeCommits := totalMergeCommitsOf repos
      revertCommits := totalRevertCommitsOf repos
      hotfixCount := totalHotfixCountOf repos
      hotfixRate := jsToFixed 3 ((totalHotfixCountOf repos : ℚ) / (totalCommitsOf repos : ℚ))
      bigRefactorCount := totalBigRefactorCountOf repos
      bigRefactorCountTip :=
        if 20 ≤ totalBigRefactorCountOf repos then "🔨 重构之神，代码焕然一新".data
        else if 10 ≤ totalBigRefactorCountOf repos then "🛠️ 重构大师".data
        else if 5 ≤ totalBigRefactorCountOf repos then "🔧 勤于优化".data
        else "📦 稳定为主".data
      branchCount := totalBranchCountOf repos
      branchesCreated := totalBranchesCreatedOf repos
      branchesCreatedTip :=
        if 50 ≤ totalBranchesCreatedOf repos then "🌿 分支管理大师".data
        else if 20 ≤ totalBranchesCreatedOf repos then "🌱 分支达人".data
        else if 10 ≤ totalBranchesCreatedOf repos then "🪴 有序开发".data
        else "🎋 精简分支".data
      topProjects := topProjectsOf repos
      allProjects := repos.map (fun r => r.name)
      badges := globalBadgesOf repos
      annualTitle := annualTitleOf repos }

/-! ## Concrete sample inputs used by the claim theorems -/

/-- A log with one commit and hence one active day. -/
def logOneDay : List Char :=
  "a1c|2024-03-05T10:00:00+08:00|hello world\n3\t1\tsrc/app.js".data

/-- A log whose active-day set is `{2024-01-01, 2024-01-10}`. -/
def logTwoDays : List Char :=
  "a1c|2024-01-01T10:00:00+08:00|alpha\nb2d|2024-01-10T09:00:00+08:00|beta".data

/-- A second one-day log, same calendar day as `logOneDay`, for the
active-day double-counting example. -/
def logOneDayB : List Char :=
  "c3e|2024-03-05T22:30:00+08:00|evening work".data

/-- A log whose single numstat path has the anomalous extension
`.a}`. -/
def logWeirdExt : List Char :=
  "a1c|2024-01-01T10:00:00+08:00|update\n1\t2\tx.a\x7d".data

/-- Shared placeholder repository record used as a base for concrete
aggregator inputs and as the `Option.getD` fallback. -/
def baseRepo : RepoStats where
  name := "repo".data
  commits := 1
  activeDays := 1
  longestStreak := 1
  insertions := 0
  deletions := 0
  netLines := 0
  filesChanged := 0
  hourDistribution := List.replicate 24 0
  weekDistribution := List.replicate 7 0
  nightOwlRate := 0
  earliestCommit := ⟨[], []⟩
  latestCommit := ⟨[], []⟩
  shortestCommit := ⟨[], 0⟩
  longestCommit := ⟨[], 0⟩
  topKeywords := []
  emojiStats := []
  topChangedFiles := []
  weekendVsWeekday := ⟨0, 1, 0⟩
  mostProductiveDay := none
  mostProductiveWeek := none
  avgCommitInterval := 0
  lateNightCount := 0
  commitTypeDistribution := []
  mergeCommits := 0
  revertCommits := 0
  hotfixCount := 0
  hotfixRate := 0
  longestGap := 0
  emotionIndex := ⟨0, 0⟩
  yearSpanDays := 0
  topFileTypes := []
  avgLinesPerCommit := 0
  bigRefactorCount := 0
  branchCount := 0
  earlyBirdCount := 0
  badges := []
  collaborators := []
  monthlyTrend := []
  quarterlyComparison := ⟨1, 0, 0, 0⟩
  mostProductiveQuarter := ("Q1".data, 1)
  longestWorkSession := ⟨none, 0, 0⟩
  fileChanges := ⟨0, 0, 0⟩
  hourLines := List.replicate 24 0
  weekLines := List.replicate 7 0
  quarterlyLines := none
  branchesCreated := none
  commitRatio := none

/-- Repository with 10 commits at average interval 5 hours. -/
def repoTenByFive : RepoStats := { baseRepo with commits := 10, avgCommitInterval := 5 }

/-- Repository with 90 commits at average interval 1 hour. -/
def repoNinetyByOne : RepoStats :=
  { baseRepo with name := "other".data, commits := 90, avgCommitInterval := 1 }

/-- Repository with one commit touching 100 lines. -/
def repoHundredLines : RepoStats :=
  { baseRepo with commits := 1, insertions := 100, avgLinesPerCommit := 100 }

/-- Repository with nine commits touching no lines. -/
def repoNineEmpty : RepoStats :=
  { baseRepo with name := "other".data, commits := 9, avgLinesPerCommit := 0 }

/-- The analyzer output for `logWeirdExt` (total function via the
`baseRepo` fallback; the analyzer does return a record here). -/
def statsWeirdExt : RepoStats :=
  (analyzeLocalRepo "w".data "me".data logWeirdExt [] [] 0).getD baseRepo

/-- The analyzer outputs for the two same-day logs. -/
def statsOneDay : RepoStats :=
  (analyzeLocalRepo "r1".data "me".data logOneDay [] [] 0).getD baseRepo

/-- Second same-day analyzer output. -/
def statsOneDayB : RepoStats :=
  (analyzeLocalRepo "r2".data "me".data logOneDayB [] [] 0).getD baseRepo

/-- A repository record whose four top-N lists are concrete, sorted,
duplicate-free and short, used to witness the singleton-aggregation
theorem. -/
def repoRanked : RepoStats :=
  { baseRepo with
    topKeywords := [⟨"update".data, 5⟩, ⟨"merge".data, 4⟩, ⟨"deps".data, 2⟩]
    emojiStats := [⟨"✨".data, 3⟩]
    topFileTypes := [⟨".js".data, 7⟩, ⟨".md".data, 1⟩]
    topChangedFiles := [⟨"src/app.js".data, 6⟩, ⟨"README.md".data, 2⟩] }

/-! ## Shared lemmas -/

theorem splitOnC_ne_nil (sep : Char) (l : List Char) : splitOnC sep l ≠ [] := by
  induction l with
  | nil => simp [splitOnC]
  | cons c rest ih =>
    simp only [splitOnC]
    rcases hs : splitOnC sep rest with _ | ⟨s, ss⟩
    · exact absurd hs ih
    · by_cases hc : c = sep <;> simp [hc]

theorem splitOnC_append_sep (sep : Char) (h t : List Char) (hh : sep ∉ h) :
    splitOnC sep (h ++ sep :: t) = h :: splitOnC sep t := by
  induction h with
  | nil =>
    simp only [List.nil_append, splitOnC]
    rcases hs : splitOnC sep t with _ | ⟨s, ss⟩
    · exact absurd hs (splitOnC_ne_nil sep t)
    · simp
  | cons c cs ih =>
    have hc : ¬(c = sep) := fun e => hh (by simp [e])
    have hcs : sep ∉ cs := fun m => hh (List.mem_cons_of_mem _ m)
    simp only [List.cons_append, splitOnC, List.append_eq]
    rw [ih hcs]
    simp [hc]

theorem intercalateC_cons_cons (sep c : Char) (s : List Char) (ss : List (List Char)) :
    intercalateC sep ((c :: s) :: ss) = c :: intercalateC sep (s :: ss) := by
  cases ss <;> simp [intercalateC]

theorem intercalateC_nil_cons (sep : Char) (s : List Char) (ss : List (List Char)) :
    intercalateC sep ([] :: s :: ss) = sep :: intercalateC sep (s :: ss) := by
  simp [intercalateC]

theorem intercalateC_splitOnC (sep : Char) (l : List Char) :
    intercalateC sep (splitOnC sep l) = l := by
  induction l with
  | nil => rfl
  | cons c rest ih =>
    rcases hs : splitOnC sep rest with _ | ⟨s, ss⟩
    · exact absurd hs (splitOnC_ne_nil sep rest)
    · rw [hs] at ih
      simp only [splitOnC, hs]
      by_cases hc : c = sep
      · rw [if_pos hc, intercalateC_nil_cons, ih, hc]
      · rw [if_neg hc, intercalateC_cons_cons, ih]

theorem mem_of_mem_splitOnC (sep : Char) {l part : List Char} {c : Char}
    (hp : part ∈ splitOnC sep l) (hc : c ∈ part) : c ∈ l := by
  induction l generalizing part with
  | nil =>
    simp [splitOnC] at hp
    subst hp
    exact absurd hc (List.not_mem_nil c)
  | cons x rest ih =>
    rcases hs : splitOnC sep rest with _ | ⟨s, ss⟩
    · exact absurd hs (splitOnC_ne_nil sep rest)
    · simp only [splitOnC, hs] at hp
      by_cases hx : x = sep
      · simp only [if_pos hx] at hp
        rcases List.mem_cons.mp hp with h1 | h2
        · subst h1; exact absurd hc (List.not_mem_nil c)
        · exact List.mem_cons_of_mem x (ih (by rw [hs]; exact h2) hc)
      · simp only [if_neg hx] at hp
        rcases List.mem_cons.mp hp with h1 | h2
        · subst h1
          rcases List.mem_cons.mp hc with h3 | h4
          · rw [h3]; exact List.mem_cons_self x rest
          · exact List.mem_cons_of_mem x
              (ih (by rw [hs]; exact List.mem_cons_self s ss) h4)
        · exact List.mem_cons_of_mem x
            (ih (by rw [hs]; exact List.mem_cons_of_mem s h2) hc)

theorem stepLine_ws (st : ParseState) (l : List Char) (h : l.all isJsWs) :
    stepLine st l = st := by
  have hp : '|' ∉ l := by
    intro m
    exact absurd (List.all_eq_true.mp h _ m) (by decide)
  unfold stepLine
  rw [if_neg hp]
  rcases hcur : st.current with _ | cur
  · rfl
  · dsimp only
    rw [if_pos h]

theorem parseLog_ws (logRaw : List Char) (h : logRaw.all isJsWs) :
    parseLog logRaw = initState := by
  unfold parseLog
  have key : ∀ lines : List (List Char), (∀ l ∈ lines, l.all isJsWs) →
      ∀ st, lines.foldl stepLine st = st := by
    intro lines hl
    induction lines with
    | nil => intro st; rfl
    | cons a as ih =>
      intro st
      rw [List.foldl_cons, stepLine_ws st a (hl a (by simp))]
      exact ih (fun l m => hl l (by simp [m])) st
  apply key
  intro l hlm
  rw [List.all_eq_true]
  intro c hc
  exact List.all_eq_true.mp h c (mem_of_mem_splitOnC '\n' hlm hc)

/-! ## Claim C1 -/

/-- C1 counterexample: the per-repository builder analyzing a log whose
active-day set has exactly one element reports a longest streak of 1,
not 0 as the claim states. -/
theorem c1_counterexample :
    (analyzeLocalRepo "r".data "me".data logOneDay [] [] 0).map (fun r => r.activeDays) =
      some 1 ∧
    (analyzeLocalRepo "r".data "me".data logOneDay [] [] 0).map (fun r => r.longestStreak) ≠
      some 0 :=
  ⟨by decide, by decide⟩

/-- C1 (amended): for a one-element active-day set the longest gap is 0
and the longest streak is 1 (not 0); for the two-element set
`{2024-01-01, 2024-01-10}` the gap is 8 and the streak is 1, both at
the level of the day-list helpers and through the full builder. -/
theorem c1_singleton_and_pair_day_metrics :
    (∀ d : CalDate, calcLongestGap [d] = 0 ∧ longestStreakCalc [d] = 1) ∧
    calcLongestGap [⟨2024, 1, 1⟩, ⟨2024, 1, 10⟩] = 8 ∧
    longestStreakCalc [⟨2024, 1, 1⟩, ⟨2024, 1, 10⟩] = 1 ∧
    (analyzeLocalRepo "r".data "me".data logTwoDays [] [] 0).map
      (fun r => (r.activeDays, r.longestStreak, r.longestGap)) = some (2, 1, 8) ∧
    (analyzeLocalRepo "r".data "me".data logOneDay [] [] 0).map
      (fun r => (r.activeDays, r.longestStreak, r.longestGap)) = some (1, 1, 0) := by
  refine ⟨fun d => ⟨rfl, rfl⟩, by decide, by decide, by decide, by decide⟩

/-! ## Claim C2 -/

/-- C2: a header line parses with only the first two separators as
field boundaries — the hash and date are the separator-free first two
fields and the message is the entire remainder, separators included;
the parse step appends exactly that commit record. -/
theorem c2_message_keeps_separators (st : ParseState) (h d m : List Char)
    (hh : '|' ∉ h) (hd : '|' ∉ d) :
    parseHeaderLine (h ++ '|' :: (d ++ '|' :: m)) = some ⟨h, d, m⟩ ∧
    (stepLine st (h ++ '|' :: (d ++ '|' :: m))).commits = st.commits ++ [⟨h, d, m⟩] := by
  have e1 : splitOnC '|' (h ++ '|' :: (d ++ '|' :: m)) = h :: d :: splitOnC '|' m := by
    rw [splitOnC_append_sep '|' h _ hh, splitOnC_append_sep '|' d _ hd]
  have e2 : parseHeaderLine (h ++ '|' :: (d ++ '|' :: m)) = some ⟨h, d, m⟩ := by
    unfold parseHeaderLine
    rw [e1]
    rcases hs : splitOnC '|' m with _ | ⟨s, ss⟩
    · exact absurd hs (splitOnC_ne_nil '|' m)
    · have : intercalateC '|' (s :: ss) = m := by rw [← hs]; exact intercalateC_splitOnC '|' m
      simp [this]
  refine ⟨e2, ?_⟩
  have hmem : '|' ∈ h ++ '|' :: (d ++ '|' :: m) :=
    List.mem_append_right h (List.mem_cons_self '|' _)
  unfold stepLine
  rw [if_pos hmem, e2]

/-- C2 witness at a concrete header line whose message itself contains
the separator. -/
theorem c2_witness :
    parseHeaderLine ("abc".data ++ '|' :: ("2024-01-01T00:00:00+00:00".data ++ '|' ::
        "fix: a|b".data)) =
      some ⟨"abc".data, "2024-01-01T00:00:00+00:00".data, "fix: a|b".data⟩ :=
  (c2_message_keeps_separators initState "abc".data "2024-01-01T00:00:00+00:00".data
    "fix: a|b".data (by decide) (by decide)).1

/-! ## Claim C3 -/

/-- C3: a line in numstat position (no separator, hence not a header
line) that fails the numstat pattern leaves the parse state untouched,
and removing it from the line stream leaves the whole parse — commit
records, totals, and file counters — unchanged. -/
theorem c3_malformed_numstat_skipped (st : ParseState) (pre post : List (List Char))
    (line : List Char) (hp : '|' ∉ line) (hm : numstatMatch line = none) :
    stepLine st line = st ∧
    (pre ++ line :: post).foldl stepLine st = (pre ++ post).foldl stepLine st := by
  have hstep : ∀ s : ParseState, stepLine s line = s := by
    intro s
    unfold stepLine
    rw [if_neg hp]
    rcases hcur : s.current with _ | cur
    · rfl
    · dsimp only
      by_cases hw : line.all isJsWs
      · rw [if_pos hw]
      · rw [if_neg hw, hm]
  refine ⟨hstep st, ?_⟩
  rw [List.foldl_append, List.foldl_cons, hstep, ← List.foldl_append]

/-- C3 witness: a two-token numstat line is skipped inside a concrete
stream. -/
theorem c3_witness :
    stepLine initState "1\t2".data = initState ∧
    (["a|b|c".data] ++ "1\t2".data :: ["3\t4\tf.js".data]).foldl stepLine initState =
      (["a|b|c".data] ++ ["3\t4\tf.js".data]).foldl stepLine initState :=
  c3_malformed_numstat_skipped initState ["a|b|c".data] ["3\t4\tf.js".data] "1\t2".data
    (by decide) (by decide)

/-! ## Claim C4 -/

/-- C4: the aggregator signals "nothing to summarize" exactly on the
empty collection, and the per-repository builder signals "no data"
exactly when the log parses to zero commits — otherwise it returns a
record whose commit count is the positive number of parsed commits,
never a zeroed record. -/
theorem c4_no_data_signals :
    (∀ repos, buildSummary repos = none ↔ repos = []) ∧
    (∀ name author logRaw authorsRaw diffTreeRaw branchCount,
      (analyzeLocalRepo name author logRaw authorsRaw diffTreeRaw branchCount = none ↔
        (parseLog logRaw).commits = []) ∧
      (∀ r, analyzeLocalRepo name author logRaw authorsRaw diffTreeRaw branchCount = some r →
        r.commits = (parseLog logRaw).commits.length ∧ 0 < r.commits)) := by
  constructor
  · intro repos
    cases repos <;> simp [buildSummary]
  · intro name author logRaw authorsRaw diffTreeRaw branchCount
    by_cases hws : logRaw.all isJsWs
    · have hnil : (parseLog logRaw).commits = [] := by rw [parseLog_ws logRaw hws]; rfl
      constructor
      · simp [analyzeLocalRepo, hws, hnil]
      · intro r hr
        simp [analyzeLocalRepo, hws] at hr
    · by_cases hce : (parseLog logRaw).commits.isEmpty
      · constructor
        · simp [analyzeLocalRepo, hws, hce, List.isEmpty_iff.mp hce]
        · intro r hr
          simp [analyzeLocalRepo, hws, hce] at hr
      · constructor
        · simp only [analyzeLocalRepo, hws, hce, if_neg, if_false]
          constructor
          · intro h; exact absurd h (by simp)
          · intro h; exact absurd (List.isEmpty_iff.mpr h) hce
        · intro r hr
          simp only [analyzeLocalRepo, hws, hce, if_neg, if_false] at hr
          have hr' : r = mkRepoStats name (parseLog logRaw)
              (collaboratorsCalc authorsRaw author)
              (countStatusLines "A\t".data diffTreeRaw)
              (countStatusLines "D\t".data diffTreeRaw) branchCount := by
            exact (Option.some_injective _ hr.symm)
          subst hr'
          refine ⟨rfl, ?_⟩
          have : (parseLog logRaw).commits ≠ [] := fun h => hce (List.isEmpty_iff.mpr h)
          exact List.length_pos.mpr this

/-- C4 witness: a concrete nonempty log yields a record with the
positive parsed commit count. -/
theorem c4_witness :
    statsOneDay.commits = (parseLog logOneDay).commits.length ∧ 0 < statsOneDay.commits :=
  (c4_no_data_signals.2 "r1".data "me".data logOneDay [] [] 0).2 statsOneDay rfl

theorem foldl_add_eq {M : Type} [AddCommMonoid M] {α : Type} (f : α → M) (l : List α) (b : M) :
    l.foldl (fun a x => a + f x) b = b + (l.map f).sum := by
  induction l generalizing b with
  | nil => simp
  | cons x xs ih => simp [ih, add_assoc]

theorem buildSummary_fields (repos : List RepoStats) (s : Summary)
    (h : buildSummary repos = some s) :
    s.avgCommitInterval = avgCommitIntervalOf repos ∧
    s.avgLinesPerCommit = avgLinesPerCommitOf repos ∧
    s.activeDays = estimatedActiveDaysOf repos ∧
    s.annualTitle = annualTitleOf repos ∧
    s.topKeywords = topKeywordsOf repos ∧
    s.emojiStats = emojiStatsOf repos ∧
    s.topFileTypes = topFileTypesOf repos ∧
    s.topChangedFiles = topChangedFilesOf repos := by
  cases repos with
  | nil => simp [buildSummary] at h
  | cons r rs =>
    unfold buildSummary at h
    rw [if_neg (by simp)] at h
    have he := Option.some.inj h
    subst he
    exact ⟨rfl, rfl, rfl, rfl, rfl, rfl, rfl, rfl⟩

/-! ## Claim C5 -/

/-- C5: the global average commit interval is the commit-count-weighted
mean of the per-repository intervals and the global average lines per
commit is total lines over total commits (both then rounded to two
decimals, as all average fields are); on the spec's example the
weighted interval is 1.4, not the unweighted mean 3, and a
one-commit/100-line repository merged with a nine-commit/0-line one
averages 10 lines per commit, not the 50 a mean of per-repository
averages would give. -/
theorem c5_weighted_averages :
    (∀ repos s, buildSummary repos = some s →
      s.avgCommitInterval =
        jsToFixed 2 ((repos.map (fun r => r.avgCommitInterval * (r.commits : ℚ))).sum /
          (((repos.map (fun r => r.commits)).sum : ℕ) : ℚ)) ∧
      s.avgLinesPerCommit =
        jsToFixed 2 ((((repos.map (fun r => r.insertions)).sum +
            (repos.map (fun r => r.deletions)).sum : ℕ) : ℚ) /
          (((repos.map (fun r => r.commits)).sum : ℕ) : ℚ))) ∧
    (buildSummary [repoTenByFive, repoNinetyByOne]).map (fun s => s.avgCommitInterval) =
      some (7 / 5) ∧
    ¬ (buildSummary [repoTenByFive, repoNinetyByOne]).map (fun s => s.avgCommitInterval) =
      some 3 ∧
    (buildSummary [repoHundredLines, repoNineEmpty]).map (fun s => s.avgLinesPerCommit) =
      some 10 ∧
    ¬ (buildSummary [repoHundredLines, repoNineEmpty]).map (fun s => s.avgLinesPerCommit) =
      some ((repoHundredLines.avgLinesPerCommit + repoNineEmpty.avgLinesPerCommit) / 2) := by
  have hint : avgCommitIntervalOf [repoTenByFive, repoNinetyByOne] = 7 / 5 := by
    simp only [avgCommitIntervalOf, totalCommitsOf, List.foldl_cons, List.foldl_nil,
      repoTenByFive, repoNinetyByOne, baseRepo, jsToFixed]
    norm_num [round_eq]
  have hlin : avgLinesPerCommitOf [repoHundredLines, repoNineEmpty] = 10 := by
    simp only [avgLinesPerCommitOf, totalCommitsOf, totalInsertionsOf, totalDeletionsOf,
      List.foldl_cons, List.foldl_nil, repoHundredLines, repoNineEmpty, baseRepo, jsToFixed]
    norm_num [round_eq]
  have hmap1 : (buildSummary [repoTenByFive, repoNinetyByOne]).map
      (fun s => s.avgCommitInterval) = some (avgCommitIntervalOf [repoTenByFive, repoNinetyByOne]) := rfl
  have hmap2 : (buildSummary [repoHundredLines, repoNineEmpty]).map
      (fun s => s.avgLinesPerCommit) = some (avgLinesPerCommitOf [repoHundredLines, repoNineEmpty]) := rfl
  refine ⟨?_, ?_, ?_, ?_, ?_⟩
  · intro repos s h
    obtain ⟨h1, h2, -⟩ := buildSummary_fields repos s h
    constructor
    · rw [h1]
      unfold avgCommitIntervalOf totalCommitsOf
      rw [foldl_add_eq, foldl_add_eq, zero_add, zero_add]
    · rw [h2]
      unfold avgLinesPerCommitOf totalInsertionsOf totalDeletionsOf totalCommitsOf
      rw [foldl_add_eq, foldl_add_eq, foldl_add_eq, zero_add, zero_add, zero_add]
  · rw [hmap1, hint]
  · rw [hmap1, hint]
    intro h
    have := Option.some.inj h
    norm_num at this
  · rw [hmap2, hlin]
  · rw [hmap2, hlin]
    intro h
    have := Option.some.inj h
    rw [show repoHundredLines.avgLinesPerCommit = 100 from rfl,
      show repoNineEmpty.avgLinesPerCommit = 0 from rfl] at this
    norm_num at this

/-- C5 witness: the general weighted-average formulas applied at the
spec's concrete pair of repositories. -/
theorem c5_witness :
    ∃ s, buildSummary [repoTenByFive, repoNinetyByOne] = some s ∧
      s.avgCommitInterval =
        jsToFixed 2 (([repoTenByFive, repoNinetyByOne].map
            (fun r => r.avgCommitInterval * (r.commits : ℚ))).sum /
          ((([repoTenByFive, repoNinetyByOne].map (fun r => r.commits)).sum : ℕ) : ℚ)) := by
  refine ⟨_, rfl, ?_⟩
  exact (c5_weighted_averages.1 [repoTenByFive, repoNinetyByOne] _ rfl).1

theorem foldl_perm {α β : Type} (f : β → α → β)
    (hf : ∀ b a a', f (f b a) a' = f (f b a') a)
    {l l' : List α} (h : l.Perm l') : ∀ b, l.foldl f b = l'.foldl f b := by
  induction h with
  | nil => intro b; rfl
  | cons x _ ih => intro b; simp only [List.foldl_cons]; exact ih _
  | swap x y l => intro b; simp only [List.foldl_cons]; rw [hf]
  | trans _ _ ih1 ih2 => intro b; rw [ih1, ih2]

theorem joinAdd_comm (acc a b : List Nat) :
    joinAdd (joinAdd acc a) b = joinAdd (joinAdd acc b) a := by
  induction acc generalizing a b with
  | nil => cases a <;> cases b <;> simp [joinAdd]
  | cons h t ih =>
    cases a with
    | nil => cases b <;> simp [joinAdd]
    | cons a0 as =>
      cases b with
      | nil => simp [joinAdd]
      | cons b0 bs =>
        simp only [joinAdd, List.cons.injEq]
        exact ⟨by omega, ih as bs⟩

theorem aggregates_perm {l l' : List RepoStats} (h : l.Perm l') :
    totalCommitsOf l = totalCommitsOf l' ∧
    totalInsertionsOf l = totalInsertionsOf l' ∧
    hourDistributionOf l = hourDistributionOf l' ∧
    weekDistributionOf l = weekDistributionOf l' ∧
    longestStreakAgg l = longestStreakAgg l' ∧
    longestGapAgg l = longestGapAgg l' ∧
    totalBigRefactorCountOf l = totalBigRefactorCountOf l' ∧
    totalMergeCommitsOf l = totalMergeCommitsOf l' := by
  refine ⟨?_, ?_, ?_, ?_, ?_, ?_, ?_, ?_⟩
  · exact foldl_perm _ (fun b a a' => by omega) h 0
  · exact foldl_perm _ (fun b a a' => by omega) h 0
  · unfold hourDistributionOf
    exact foldl_perm (fun acc r => joinAdd acc r.hourDistribution)
      (fun b a a' => joinAdd_comm b a.hourDistribution a'.hourDistribution) h _
  · unfold weekDistributionOf
    exact foldl_perm (fun acc r => joinAdd acc r.weekDistribution)
      (fun b a a' => joinAdd_comm b a.weekDistribution a'.weekDistribution) h _
  · exact foldl_perm _ (fun b a a' => by omega) h 0
  · exact foldl_perm _ (fun b a a' => by omega) h 0
  · exact foldl_perm _ (fun b a a' => by omega) h 0
  · exact foldl_perm _ (fun b a a' => by omega) h 0

theorem titleCandidates_perm {l l' : List RepoStats} (h : l.Perm l') :
    titleCandidatesOf l = titleCandidatesOf l' := by
  obtain ⟨h1, h2, h3, h4, h5, h6, h7, h8⟩ := aggregates_perm h
  unfold titleCandidatesOf nightCommitsOf earlyBirdCommitsOf weekendCommitsOf lateNightCommitsOf
  rw [h1, h2, h3, h4, h5, h6, h7, h8, h.length_eq]

theorem annualTitle_perm {l l' : List RepoStats} (h : l.Perm l') :
    annualTitleOf l = annualTitleOf l' := by
  unfold annualTitleOf
  rw [titleCandidates_perm h]

theorem map_annualTitle (r : RepoStats) (rs : List RepoStats) :
    (buildSummary (r :: rs)).map (fun s => s.annualTitle) = some (annualTitleOf (r :: rs)) := by
  unfold buildSummary
  rw [if_neg (by simp)]
  rfl

theorem length_insertDescBy {α β : Type} [LinearOrder β] (key : α → β) (x : α) (l : List α) :
    (insertDescBy key x l).length = l.length + 1 := by
  induction l with
  | nil => rfl
  | cons y ys ih =>
    unfold insertDescBy
    by_cases hk : key y ≤ key x
    · rw [if_pos hk]; rfl
    · rw [if_neg hk]
      simp [ih]

theorem length_sortDescBy {α β : Type} [LinearOrder β] (key : α → β) (l : List α) :
    (sortDescBy key l).length = l.length := by
  induction l with
  | nil => rfl
  | cons x xs ih =>
    show (insertDescBy key x (sortDescBy key xs)).length = xs.length + 1
    rw [length_insertDescBy, ih]

theorem head?_sortDescBy {α β : Type} [LinearOrder β] (key : α → β) (l : List α) :
    (sortDescBy key l).head? = firstMaxBy key l := by
  induction l with
  | nil => rfl
  | cons x xs ih =>
    show (insertDescBy key x (sortDescBy key xs)).head? = firstMaxBy key (x :: xs)
    rcases hs : sortDescBy key xs with _ | ⟨y, ys⟩
    · have hx : xs = [] := by
        have hlen := length_sortDescBy key xs
        rw [hs] at hlen
        exact List.length_eq_zero.mp hlen.symm
      subst hx
      rfl
    · rw [hs] at ih
      unfold firstMaxBy
      rw [← ih]
      show (insertDescBy key x (y :: ys)).head? = _
      unfold insertDescBy
      by_cases hk : key y ≤ key x
      · rw [if_pos hk]
        have hnot : ¬(key x < key y) := not_lt.mpr hk
        simp [hnot]
      · rw [if_neg hk]
        have hlt : key x < key y := not_le.mp hk
        simp [hlt]

theorem firstMaxBy_cons_some {α β : Type} [LinearOrder β] (key : α → β) (x : α) (xs : List α) :
    ∃ w, firstMaxBy key (x :: xs) = some w := by
  unfold firstMaxBy
  rcases firstMaxBy key xs with _ | m
  · exact ⟨x, rfl⟩
  · by_cases hk : key x < key m
    · exact ⟨m, by simp [hk]⟩
    · exact ⟨x, by simp [hk]⟩

/-! ## Claim C6 -/

/-- C6: the annual title is a deterministic function of the merged
metrics — aggregating any permutation of the repository collection
yields the same title — and the winner is always the first candidate,
in the fixed declaration order, whose score is maximal (the stable
sort breaks score ties by declaration order). -/
theorem c6_title_determinism :
    (∀ repos repos' : List RepoStats, repos.Perm repos' →
      (buildSummary repos).map (fun s => s.annualTitle) =
        (buildSummary repos').map (fun s => s.annualTitle)) ∧
    (∀ repos : List RepoStats, ∃ w,
      firstMaxBy (fun c => c.score) (titleCandidatesOf repos) = some w ∧
      annualTitleOf repos = ⟨w.title, w.desc⟩) := by
  constructor
  · intro repos repos' h
    cases repos with
    | nil =>
      have : repos' = [] := h.symm.eq_nil
      subst this
      rfl
    | cons r rs =>
      rcases hx : repos' with _ | ⟨r', rs'⟩
      · subst hx
        exact absurd h.eq_nil (by simp)
      · subst hx
        rw [map_annualTitle, map_annualTitle, annualTitle_perm h]
  · intro repos
    have hhead := head?_sortDescBy (fun c => c.score) (titleCandidatesOf repos)
    obtain ⟨w, hw⟩ : ∃ w, firstMaxBy (fun c => c.score) (titleCandidatesOf repos) = some w := by
      unfold titleCandidatesOf
      exact firstMaxBy_cons_some _ _ _
    refine ⟨w, hw, ?_⟩
    unfold annualTitleOf
    rcases hl : sortDescBy (fun c => c.score) (titleCandidatesOf repos) with _ | ⟨a, t⟩
    · rw [hl] at hhead
      rw [hw] at hhead
      exact absurd hhead.symm (by simp)
    · rw [hl] at hhead
      rw [hw] at hhead
      have : a = w := Option.some.inj hhead
      subst this
      rw [hl]
      rfl

/-- C6 witness: swapping a concrete two-repository collection leaves
the selected annual title unchanged. -/
theorem c6_witness :
    (buildSummary [repoTenByFive, repoNinetyByOne]).map (fun s => s.annualTitle) =
      (buildSummary [repoNinetyByOne, repoTenByFive]).map (fun s => s.annualTitle) :=
  c6_title_determinism.1 _ _ (List.Perm.swap repoNinetyByOne repoTenByFive [])

theorem mem_ite_singleton {α : Type} (a b : α) (c : Prop) [Decidable c] :
    (a ∈ if c then [b] else []) ↔ c ∧ a = b := by
  by_cases h : c
  · rw [if_pos h]; simp [h]
  · rw [if_neg h]; simp [h]

/-! ## Claim C7 -/

/-- C7: the repository-local badges are awarded exactly at the literal
thresholds of the source, each badge present exactly when its
condition holds: early riser at strictly more than 20% of commits in
the 06:00–08:00 bucket, night owl at strictly more than 30% in
22:00–06:00, weekend warrior at strictly more than 30% on
Saturday/Sunday, consistent at streak ≥ 7, idle at gap ≥ 14, the
late-night badge at strictly more than 10 commits in 02:00–05:00,
refactor-heavy at ≥ 3 big refactors, and collaborative at strictly
more than 20 merge commits. -/
theorem c7_badge_thresholds (eb n w tc ls : Nat) (lg : Int) (ln br mc : Nat)
    (htc : 0 < tc) :
    (("🌅 早起鸟".data ∈ mkBadges eb n w tc ls lg ln br mc) ↔
      (1 : ℚ) / 5 < (eb : ℚ) / (tc : ℚ)) ∧
    (("🦉 夜猫子".data ∈ mkBadges eb n w tc ls lg ln br mc) ↔
      (3 : ℚ) / 10 < (n : ℚ) / (tc : ℚ)) ∧
    (("💪 周末战士".data ∈ mkBadges eb n w tc ls lg ln br mc) ↔
      (3 : ℚ) / 10 < (w : ℚ) / (tc : ℚ)) ∧
    (("🔥 稳定输出".data ∈ mkBadges eb n w tc ls lg ln br mc) ↔ 7 ≤ ls) ∧
    (("🏖️ 摸鱼王".data ∈ mkBadges eb n w tc ls lg ln br mc) ↔ (14 : Int) ≤ lg) ∧
    (("🌙 深夜肝帝".data ∈ mkBadges eb n w tc ls lg ln br mc) ↔ 10 < ln) ∧
    (("🔨 重构大师".data ∈ mkBadges eb n w tc ls lg ln br mc) ↔ 3 ≤ br) ∧
    (("🤝 协作达人".data ∈ mkBadges eb n w tc ls lg ln br mc) ↔ 20 < mc) := by
  have mem_iff : ∀ s : List Char, (s ∈ mkBadges eb n w tc ls lg ln br mc) ↔
      ((1 : ℚ) / 5 < (eb : ℚ) / (tc : ℚ) ∧ s = "🌅 早起鸟".data) ∨
      ((3 : ℚ) / 10 < (n : ℚ) / (tc : ℚ) ∧ s = "🦉 夜猫子".data) ∨
      ((3 : ℚ) / 10 < (w : ℚ) / (tc : ℚ) ∧ s = "💪 周末战士".data) ∨
      (7 ≤ ls ∧ s = "🔥 稳定输出".data) ∨
      ((14 : Int) ≤ lg ∧ s = "🏖️ 摸鱼王".data) ∨
      (10 < ln ∧ s = "🌙 深夜肝帝".data) ∨
      (3 ≤ br ∧ s = "🔨 重构大师".data) ∨
      (20 < mc ∧ s = "🤝 协作达人".data) := by
    intro s
    unfold mkBadges
    simp only [List.mem_append, mem_ite_singleton, or_assoc]
  refine ⟨?_, ?_, ?_, ?_, ?_, ?_, ?_, ?_⟩ <;> rw [mem_iff] <;> constructor
  · rintro (⟨hc, he⟩ | ⟨hc, he⟩ | ⟨hc, he⟩ | ⟨hc, he⟩ | ⟨hc, he⟩ | ⟨hc, he⟩ | ⟨hc, he⟩ | ⟨hc, he⟩) <;>
      first
        | exact hc
        | exact absurd he (by decide)
  · intro hc
    exact Or.inl ⟨hc, rfl⟩
  · rintro (⟨hc, he⟩ | ⟨hc, he⟩ | ⟨hc, he⟩ | ⟨hc, he⟩ | ⟨hc, he⟩ | ⟨hc, he⟩ | ⟨hc, he⟩ | ⟨hc, he⟩) <;>
      first
        | exact hc
        | exact absurd he (by decide)
  · intro hc
    exact Or.inr (Or.inl ⟨hc, rfl⟩)
  · rintro (⟨hc, he⟩ | ⟨hc, he⟩ | ⟨hc, he⟩ | ⟨hc, he⟩ | ⟨hc, he⟩ | ⟨hc, he⟩ | ⟨hc, he⟩ | ⟨hc, he⟩) <;>
      first
        | exact hc
        | exact absurd he (by decide)
  · intro hc
    exact Or.inr (Or.inr (Or.inl ⟨hc, rfl⟩))
  · rintro (⟨hc, he⟩ | ⟨hc, he⟩ | ⟨hc, he⟩ | ⟨hc, he⟩ | ⟨hc, he⟩ | ⟨hc, he⟩ | ⟨hc, he⟩ | ⟨hc, he⟩) <;>
      first
        | exact hc
        | exact absurd he (by decide)
  · intro hc
    exact Or.inr (Or.inr (Or.inr (Or.inl ⟨hc, rfl⟩)))
  · rintro (⟨hc, he⟩ | ⟨hc, he⟩ | ⟨hc, he⟩ | ⟨hc, he⟩ | ⟨hc, he⟩ | ⟨hc, he⟩ | ⟨hc, he⟩ | ⟨hc, he⟩) <;>
      first
        | exact hc
        | exact absurd he (by decide)
  · intro hc
    exact Or.inr (Or.inr (Or.inr (Or.inr (Or.inl ⟨hc, rfl⟩))))
  · rintro (⟨hc, he⟩ | ⟨hc, he⟩ | ⟨hc, he⟩ | ⟨hc, he⟩ | ⟨hc, he⟩ | ⟨hc, he⟩ | ⟨hc, he⟩ | ⟨hc, he⟩) <;>
      first
        | exact hc
        | exact absurd he (by decide)
  · intro hc
    exact Or.inr (Or.inr (Or.inr (Or.inr (Or.inr (Or.inl ⟨hc, rfl⟩)))))
  · rintro (⟨hc, he⟩ | ⟨hc, he⟩ | ⟨hc, he⟩ | ⟨hc, he⟩ | ⟨hc, he⟩ | ⟨hc, he⟩ | ⟨hc, he⟩ | ⟨hc, he⟩) <;>
      first
        | exact hc
        | exact absurd he (by decide)
  · intro hc
    exact Or.inr (Or.inr (Or.inr (Or.inr (Or.inr (Or.inr (Or.inl ⟨hc, rfl⟩))))))
  · rintro (⟨hc, he⟩ | ⟨hc, he⟩ | ⟨hc, he⟩ | ⟨hc, he⟩ | ⟨hc, he⟩ | ⟨hc, he⟩ | ⟨hc, he⟩ | ⟨hc, he⟩) <;>
      first
        | exact hc
        | exact absurd he (by decide)
  · intro hc
    exact Or.inr (Or.inr (Or.inr (Or.inr (Or.inr (Or.inr (Or.inr ⟨hc, rfl⟩))))))

/-- C7 witness: with 3 of 10 commits in the early bucket the early-riser
badge is present. -/
theorem c7_witness :
    "🌅 早起鸟".data ∈ mkBadges 3 0 0 10 0 0 0 0 0 :=
  ((c7_badge_thresholds 3 0 0 10 0 0 0 0 0 (by decide)).1).mpr (by norm_num)

theorem bumpBy_not_mem {κ : Type} [DecidableEq κ] (m : List (κ × Nat)) (k : κ) (n : Nat)
    (h : ∀ q ∈ m, q.1 ≠ k) : bumpBy m k n = m ++ [(k, n)] := by
  induction m with
  | nil => rfl
  | cons q rest ih =>
    obtain ⟨k', v⟩ := q
    simp only [bumpBy]
    rw [if_neg (h (k', v) (List.mem_cons_self _ _))]
    rw [ih (fun q hq => h q (List.mem_cons_of_mem _ hq))]
    rfl

theorem foldl_bump_of_nodup (p : TopCount → Bool) (l : List TopCount)
    (m : List (List Char × Nat))
    (hnd : ((l.filter p).map (fun k => k.key)).Nodup)
    (hdis : ∀ k ∈ l.filter p, ∀ q ∈ m, q.1 ≠ k.key) :
    l.foldl (fun m k => if p k then bumpBy m k.key k.count else m) m =
      m ++ (l.filter p).map (fun k => (k.key, k.count)) := by
  induction l generalizing m with
  | nil => simp
  | cons x xs ih =>
    by_cases hp : p x
    · have hfil : (x :: xs).filter p = x :: xs.filter p := by simp [List.filter_cons, hp]
      rw [hfil] at hnd hdis
      rw [List.foldl_cons, if_pos hp]
      have hx : ∀ q ∈ m, q.1 ≠ x.key := hdis x (List.mem_cons_self _ _)
      rw [bumpBy_not_mem m x.key x.count hx]
      have hnd' : ((xs.filter p).map (fun k => k.key)).Nodup := (List.nodup_cons.mp hnd).2
      have hxk : x.key ∉ (xs.filter p).map (fun k => k.key) := (List.nodup_cons.mp hnd).1
      have hdis' : ∀ k ∈ xs.filter p, ∀ q ∈ m ++ [(x.key, x.count)], q.1 ≠ k.key := by
        intro k hk q hq
        rcases List.mem_append.mp hq with hq1 | hq2
        · exact hdis k (List.mem_cons_of_mem _ hk) q hq1
        · have hqe : q = (x.key, x.count) := by simpa using hq2
          subst hqe
          intro he
          apply hxk
          have he' : x.key = k.key := he
          rw [he']
          exact List.mem_map_of_mem _ hk
      rw [ih (m ++ [(x.key, x.count)]) hnd' hdis', hfil]
      simp
    · have hfil : (x :: xs).filter p = xs.filter p := by simp [List.filter_cons, hp]
      rw [hfil] at hnd hdis
      rw [List.foldl_cons, if_neg hp, ih m hnd hdis, hfil]

theorem sortDescBy_of_sorted {α β : Type} [LinearOrder β] (key : α → β) (l : List α)
    (h : l.Pairwise (fun a b => key b ≤ key a)) : sortDescBy key l = l := by
  induction l with
  | nil => rfl
  | cons x xs ih =>
    have hx := (List.pairwise_cons.mp h).1
    have hxs := (List.pairwise_cons.mp h).2
    show insertDescBy key x (sortDescBy key xs) = x :: xs
    rw [ih hxs]
    cases xs with
    | nil => rfl
    | cons y ys =>
      unfold insertDescBy
      rw [if_pos (hx y (List.mem_cons_self _ _))]

theorem map_mk_pairs (l : List TopCount) :
    ((l.map (fun k => (k.key, k.count))).map (fun p => TopCount.mk p.1 p.2)) = l := by
  rw [List.map_map]
  have he : ((fun p : List Char × Nat => TopCount.mk p.1 p.2) ∘ fun k => (k.key, k.count)) =
      id := funext fun k => rfl
  rw [he, List.map_id]

theorem merged_single (p : TopCount → Bool) (l : List TopCount) (bound : Nat)
    (hnd : (l.map (fun k => k.key)).Nodup)
    (hsort : l.Pairwise (fun a b => b.count ≤ a.count))
    (hlen : l.length ≤ bound) :
    ((sortDescBy (fun q => q.2) (l.foldl
        (fun m k => if p k then bumpBy m k.key k.count else m) [])).take bound).map
      (fun q => TopCount.mk q.1 q.2) = l.filter p := by
  have hndf : ((l.filter p).map (fun k => k.key)).Nodup := by
    refine List.Nodup.sublist ?_ hnd
    exact List.Sublist.map _ (List.filter_sublist l)
  rw [foldl_bump_of_nodup p l [] hndf (by intro k _ q hq; exact absurd hq (List.not_mem_nil q))]
  rw [List.nil_append]
  have hsorted : ((l.filter p).map (fun k => (k.key, k.count))).Pairwise
      (fun a b => b.2 ≤ a.2) := by
    rw [List.pairwise_map]
    exact (hsort.filter p)
  rw [sortDescBy_of_sorted _ _ hsorted]
  rw [List.take_of_length_le (by
    rw [List.length_map]
    exact le_trans (List.length_filter_le p l) hlen)]
  exact map_mk_pairs (l.filter p)

/-! ## Claim C8 -/

/-- C8 counterexample: aggregating the singleton collection of the
builder output for `logWeirdExt` does not reproduce its file-type
list — the merge-time anomalous-extension filter drops the `.a}`
entry, so the keyword stop-word filter is not the only merge-time
change. -/
theorem c8_counterexample :
    (buildSummary [statsWeirdExt]).map (fun s => s.topFileTypes) ≠
      some statsWeirdExt.topFileTypes := by decide

/-- C8 (amended): aggregating a singleton collection reproduces the
repository's own top-N lists unchanged in content and order, except
for the two merge-time filters: the keyword stop-word filter and the
file-type anomalous-extension filter (extensions containing a closing
brace or a double quote are dropped); the hypotheses are the shape
invariants the builder guarantees for its top lists (duplicate-free
keys, descending counts, truncated length). -/
theorem c8_singleton_merge (r : RepoStats)
    (hk1 : (r.topKeywords.map (fun k => k.key)).Nodup)
    (hk2 : r.topKeywords.Pairwise (fun a b => b.count ≤ a.count))
    (hk3 : r.topKeywords.length ≤ 20)
    (he1 : (r.emojiStats.map (fun k => k.key)).Nodup)
    (he2 : r.emojiStats.Pairwise (fun a b => b.count ≤ a.count))
    (he3 : r.emojiStats.length ≤ 10)
    (hf1 : (r.topFileTypes.map (fun k => k.key)).Nodup)
    (hf2 : r.topFileTypes.Pairwise (fun a b => b.count ≤ a.count))
    (hf3 : r.topFileTypes.length ≤ 10)
    (hc1 : (r.topChangedFiles.map (fun k => k.key)).Nodup)
    (hc2 : r.topChangedFiles.Pairwise (fun a b => b.count ≤ a.count))
    (hc3 : r.topChangedFiles.length ≤ 10) :
    ∀ s, buildSummary [r] = some s →
      s.topKeywords = r.topKeywords.filter (fun k => !stopWords.contains k.key) ∧
      s.emojiStats = r.emojiStats ∧
      s.topFileTypes = r.topFileTypes.filter (fun f => extKeep f.key) ∧
      s.topChangedFiles = r.topChangedFiles := by
  intro s h
  obtain ⟨-, -, -, -, h5, h6, h7, h8⟩ := buildSummary_fields [r] s h
  refine ⟨?_, ?_, ?_, ?_⟩
  · rw [h5]
    unfold topKeywordsOf mergedKeywordMap
    rw [List.foldl_cons, List.foldl_nil]
    have hstep : (fun (m : List (List Char × Nat)) (k : TopCount) =>
        if stopWords.contains k.key then m else bumpBy m k.key k.count) =
        (fun m k => if (!stopWords.contains k.key : Bool) then bumpBy m k.key k.count else m) := by
      funext m k
      by_cases hx : stopWords.contains k.key <;> simp [hx]
    rw [hstep]
    exact merged_single _ r.topKeywords 20 hk1 hk2 hk3
  · rw [h6]
    unfold emojiStatsOf mergedEmojiMap
    rw [List.foldl_cons, List.foldl_nil]
    have hstep : (fun (m : List (List Char × Nat)) (e : TopCount) => bumpBy m e.key e.count) =
        (fun m e => if (true : Bool) then bumpBy m e.key e.count else m) := by
      funext m e
      simp
    rw [hstep]
    have := merged_single (fun _ => true) r.emojiStats 10 he1 he2 he3
    rw [List.filter_true] at this
    exact this
  · rw [h7]
    unfold topFileTypesOf mergedFileTypeMap
    rw [List.foldl_cons, List.foldl_nil]
    exact merged_single (fun f => extKeep f.key) r.topFileTypes 10 hf1 hf2 hf3
  · rw [h8]
    unfold topChangedFilesOf mergedFileMap
    rw [List.foldl_cons, List.foldl_nil]
    have hstep : (fun (m : List (List Char × Nat)) (f : TopCount) => bumpBy m f.key f.count) =
        (fun m f => if (true : Bool) then bumpBy m f.key f.count else m) := by
      funext m f
      simp
    rw [hstep]
    have := merged_single (fun _ => true) r.topChangedFiles 10 hc1 hc2 hc3
    rw [List.filter_true] at this
    exact this

/-- C8 witness: a concrete well-formed record round-trips through the
singleton aggregation with exactly the two merge-time filters
applied. -/
theorem c8_witness :
    ∃ s, buildSummary [repoRanked] = some s ∧
      s.topKeywords = repoRanked.topKeywords.filter (fun k => !stopWords.contains k.key) ∧
      s.emojiStats = repoRanked.emojiStats ∧
      s.topFileTypes = repoRanked.topFileTypes.filter (fun f => extKeep f.key) ∧
      s.topChangedFiles = repoRanked.topChangedFiles := by
  refine ⟨_, rfl, ?_⟩
  exact c8_singleton_merge repoRanked (by decide) (by decide) (by decide) (by decide)
    (by decide) (by decide) (by decide) (by decide) (by decide) (by decide) (by decide)
    (by decide) _ rfl

theorem round_mono_q {x y : ℚ} (hxy : x ≤ y) : round x ≤ round y := by
  rw [round_eq, round_eq]
  exact Int.floor_le_floor (by linarith)

theorem jsToFixed3_ratio (a b : Nat) (hab : a ≤ b) (hb : 0 < b) :
    ∃ k : Nat, k ≤ 1000 ∧ jsToFixed 3 ((a : ℚ) / (b : ℚ)) = (k : ℚ) / 1000 := by
  have hb' : (0 : ℚ) < (b : ℚ) := by exact_mod_cast hb
  have h0 : (0 : ℚ) ≤ (a : ℚ) / b := by positivity
  have h1 : (a : ℚ) / b ≤ 1 := by
    rw [div_le_one hb']
    exact_mod_cast hab
  have hr0 : (0 : ℤ) ≤ round ((a : ℚ) / b * 10 ^ 3) := by
    have := round_mono_q (x := 0) (y := (a : ℚ) / b * 10 ^ 3) (by positivity)
    simpa using this
  have hr1 : round ((a : ℚ) / b * 10 ^ 3) ≤ 1000 := by
    have := round_mono_q (x := (a : ℚ) / b * 10 ^ 3) (y := 1000) (by nlinarith)
    simpa using this
  refine ⟨(round ((a : ℚ) / b * 10 ^ 3)).toNat, ?_, ?_⟩
  · omega
  · have hc : ((round ((a : ℚ) / (b : ℚ) * 10 ^ 3)).toNat : ℚ) =
        ((round ((a : ℚ) / (b : ℚ) * 10 ^ 3) : ℤ) : ℚ) := by
      exact_mod_cast Int.toNat_of_nonneg hr0
    unfold jsToFixed
    rw [hc]
    norm_num

theorem analyze_some_eq (name author logRaw authorsRaw diffTreeRaw : List Char) (bc : Nat)
    (r : RepoStats)
    (h : analyzeLocalRepo name author logRaw authorsRaw diffTreeRaw bc = some r) :
    r = mkRepoStats name (parseLog logRaw) (collaboratorsCalc authorsRaw author)
      (countStatusLines "A\t".data diffTreeRaw) (countStatusLines "D\t".data diffTreeRaw) bc ∧
    (parseLog logRaw).commits ≠ [] := by
  by_cases hws : logRaw.all isJsWs
  · simp [analyzeLocalRepo, hws] at h
  · by_cases hce : (parseLog logRaw).commits.isEmpty
    · simp [analyzeLocalRepo, hws, hce] at h
    · simp only [analyzeLocalRepo, hws, hce, Bool.false_eq_true, if_false,
        Option.some.injEq] at h
      exact ⟨h.symm, fun hnil => hce (List.isEmpty_iff.mpr hnil)⟩

/-! ## Claim C9 -/

/-- C9: the three rate fields of a builder record are the rounded
commit-count ratios of the source (each of the form `k/1000` with
`k ≤ 1000`, hence in `[0,1]` in steps of a thousandth), and the
aggregator's only write to an input record is the injected
`commitRatio` field, the repository's commit share rounded to three
decimals — every other field is carried over unchanged. -/
theorem c9_rates_and_frame :
    (∀ name author logRaw authorsRaw diffTreeRaw branchCount r,
      analyzeLocalRepo name author logRaw authorsRaw diffTreeRaw branchCount = some r →
      (r.nightOwlRate = jsToFixed 3 ((countNight (parseLog logRaw).commits : ℚ) /
          ((parseLog logRaw).commits.length : ℚ)) ∧
        ∃ k : Nat, k ≤ 1000 ∧ r.nightOwlRate = (k : ℚ) / 1000) ∧
      (r.weekendVsWeekday.weekendRate =
          jsToFixed 3 ((countWeekend (parseLog logRaw).commits : ℚ) /
            ((parseLog logRaw).commits.length : ℚ)) ∧
        ∃ k : Nat, k ≤ 1000 ∧ r.weekendVsWeekday.weekendRate = (k : ℚ) / 1000) ∧
      (r.hotfixRate = jsToFixed 3 ((countHotfix (parseLog logRaw).commits : ℚ) /
          ((parseLog logRaw).commits.length : ℚ)) ∧
        ∃ k : Nat, k ≤ 1000 ∧ r.hotfixRate = (k : ℚ) / 1000)) ∧
    (∀ repos : List RepoStats, ∀ i : Nat,
      (injectRatios repos)[i]? = (repos[i]?).map (fun r =>
        { r with
            commitRatio := some (jsToFixed 3
              ((r.commits : ℚ) / (totalCommitsOf repos : ℚ))) })) := by
  constructor
  · intro name author logRaw authorsRaw diffTreeRaw branchCount r h
    obtain ⟨hr, hne⟩ := analyze_some_eq name author logRaw authorsRaw diffTreeRaw branchCount r h
    subst hr
    have hlen : 0 < (parseLog logRaw).commits.length := List.length_pos.mpr hne
    refine ⟨⟨rfl, ?_⟩, ⟨rfl, ?_⟩, ⟨rfl, ?_⟩⟩
    · exact jsToFixed3_ratio _ _ (List.length_filter_le _ _) hlen
    · exact jsToFixed3_ratio _ _ (List.length_filter_le _ _) hlen
    · exact jsToFixed3_ratio _ _ (List.length_filter_le _ _) hlen
  · intro repos i
    unfold injectRatios
    rw [List.getElem?_map]

/-- C9 witness: the builder output for a concrete log has its night-owl
rate of the `k/1000` shape. -/
theorem c9_witness :
    ∃ k : Nat, k ≤ 1000 ∧ statsOneDay.nightOwlRate = (k : ℚ) / 1000 :=
  ((c9_rates_and_frame.1 "r1".data "me".data logOneDay [] [] 0 statsOneDay rfl).1).2

/-! ## Claim C10 -/

/-- C10: the global `activeDays` field is the plain sum of the
per-repository active-day counts capped at 365, hence never exceeds
365 but double-counts a calendar day that is active in two
repositories — two one-commit repositories sharing the same day merge
to `activeDays = 2` although only one distinct day has commits. -/
theorem c10_active_days_capped_sum :
    (∀ repos s, buildSummary repos = some s →
      s.activeDays = min ((repos.map (fun r => r.activeDays)).sum) 365 ∧
      s.activeDays ≤ 365) ∧
    (buildSummary [statsOneDay, statsOneDayB]).map (fun s => s.activeDays) = some 2 ∧
    ((datesCalc (parseLog logOneDay).commits ++
        datesCalc (parseLog logOneDayB).commits).dedup).length = 1 ∧
    statsOneDay.activeDays = 1 ∧ statsOneDayB.activeDays = 1 := by
  refine ⟨?_, by decide, by decide, by decide, by decide⟩
  intro repos s h
  obtain ⟨-, -, h3, -⟩ := buildSummary_fields repos s h
  rw [h3]
  unfold estimatedActiveDaysOf totalActiveDaysOf
  rw [foldl_add_eq, zero_add]
  exact ⟨rfl, min_le_right _ _⟩

/-- C10 witness: the capped-sum formula applied at the concrete
same-day pair. -/
theorem c10_witness :
    ∃ s, buildSummary [statsOneDay, statsOneDayB] = some s ∧
      s.activeDays = min (([statsOneDay, statsOneDayB].map (fun r => r.activeDays)).sum) 365 ∧
      s.activeDays ≤ 365 :=
  ⟨_, rfl, c10_active_days_capped_sum.1 _ _ rfl⟩
